import Mathlib

/-!
StudyWise: lecture voice-to-notes server

A shallow embedding of the request handlers of `backend/server.js` and
theorems about them.

JavaScript values are embedded as `JsVal` (the values a parsed JSON request
body can hold, plus `undefined` for a missing property).  Numbers are
integers: the decimal rendering of `Int` agrees with JavaScript for every
integer of magnitude below `10^21`.  Property lookup sees the own entries of
a JSON object; the inherited `toString` is accounted for in `JsVal.toStr`,
which throws where an own `toString` entry hides it.  An exception thrown
inside a `try` block is an `Except.error`; the answer of a handler is a
`Response`, and `Outcome.crashed` stands for an exception that escapes every
handler, after which the process exits without an answer.
-/

namespace StudyWise

/-! ## JavaScript values -/

/-- The values of a parsed JSON body, with `undefined` for a missing property. -/
inductive JsVal where
  | undefined
  | null
  | bool (b : Bool)
  | num (n : Int)
  | str (s : String)
  | arr (xs : List JsVal)
  | obj (kvs : List (String × JsVal))

namespace JsVal

/-- JavaScript truthiness (the test made by `!v`, `v && ...`, `v || ...`). -/
def truthy : JsVal → Bool
  | undefined => false
  | null => false
  | bool b => b
  | num n => n != 0
  | str s => s != ""
  | arr _ => true
  | obj _ => true

/-- The value of `a || b`. -/
def orElse (a b : JsVal) : JsVal := if a.truthy then a else b

/-- Own entry of a JSON object under key `k` (`undefined` when absent). -/
def lookup (k : String) : List (String × JsVal) → JsVal
  | [] => undefined
  | (k', v) :: rest => if k' = k then v else lookup k rest

/-- A thrown JavaScript exception (every handler catches all of them alike). -/
inductive JsError where
  | typeError
  | upstream (msg : String)

/-- The object has an own entry under the key `k`. -/
def hasKey (k : String) (kvs : List (String × JsVal)) : Bool :=
  kvs.any (fun kv => kv.1 == k)

mutual
/-- The string conversion of a value, made by a template literal and by
`value.toString()` on a truthy value.  An object without an own `toString`
entry inherits the method that answers `[object Object]`; an own `toString`
entry of a JSON object is never a function, and the conversion throws a
`TypeError`. -/
def toStr : JsVal → Except JsError String
  | undefined => pure "undefined"
  | null => pure "null"
  | bool b => pure (if b then "true" else "false")
  | num n => pure (toString n)
  | str s => pure s
  | arr xs => joinElems xs
  | obj kvs => if hasKey "toString" kvs then throw .typeError else pure "[object Object]"
/-- The body of `Array.prototype.join(",")`: `null` and `undefined` entries
render as the empty string, every other entry is converted. -/
def joinElems : List JsVal → Except JsError String
  | [] => pure ""
  | [x] => elemStr x
  | x :: y :: rest => do
    let first ← elemStr x
    let more ← joinElems (y :: rest)
    pure (first ++ "," ++ more)
/-- One entry of a joined array. -/
def elemStr : JsVal → Except JsError String
  | undefined => pure ""
  | null => pure ""
  | bool b => pure (if b then "true" else "false")
  | num n => pure (toString n)
  | str s => pure s
  | arr xs => joinElems xs
  | obj kvs => if hasKey "toString" kvs then throw .typeError else pure "[object Object]"
end

/-- The character of `s` at position `i` as a one-character string (exact for
strings of the Basic Multilingual Plane, where characters and UTF-16 code
units coincide). -/
def charAt (s : String) (i : Nat) : JsVal :=
  match s.data.get? i with
  | some c => str (String.mk [c])
  | none => undefined

/-- Property `k` of a value that is neither `null` nor `undefined`: own
entries of objects, elements and `length` of arrays and strings. -/
def named (v : JsVal) (k : String) : JsVal :=
  match v with
  | obj kvs => lookup k kvs
  | arr xs =>
    match (List.range xs.length).find? (fun i => toString i == k) with
    | some i => xs.getD i undefined
    | none => if k = "length" then num xs.length else undefined
  | str s =>
    match (List.range s.length).find? (fun i => toString i == k) with
    | some i => charAt s i
    | none => if k = "length" then num s.length else undefined
  | _ => undefined

/-- The member access `v.k`; reading a property of `null` or `undefined`
throws a `TypeError`. -/
def prop (v : JsVal) (k : String) : Except JsError JsVal :=
  match v with
  | undefined => throw .typeError
  | null => throw .typeError
  | _ => pure (named v k)

/-- The element access `v[i]` for a literal index `i`. -/
def index (v : JsVal) (i : Nat) : Except JsError JsVal :=
  match v with
  | undefined => throw .typeError
  | null => throw .typeError
  | arr xs => pure (xs.getD i undefined)
  | str s => pure (charAt s i)
  | _ => pure (named v (toString i))

/-- The computed access `v[key]`: a non-negative number indexes directly,
any other key is converted to a property name. -/
def atKey (v key : JsVal) : Except JsError JsVal :=
  match key with
  | num n => if 0 ≤ n then index v n.toNat else do
      let name ← toStr key
      prop v name
  | _ => do
      let name ← toStr key
      prop v name

/-- Strict equality `v === "s"` with a string literal. -/
def isStr (v : JsVal) (s : String) : Bool :=
  match v with
  | str t => t == s
  | _ => false

/-- Strict equality `i === v` of an array index with a value. -/
def isIndex (v : JsVal) (i : Nat) : Bool :=
  match v with
  | num n => n == (i : Int)
  | _ => false

end JsVal

open JsVal

/-! ## HTTP responses -/

/-- One call on the PDF document: `moveDown` counts half lines, so that
`moveDown()` is `moveDown 2` and `moveDown(0.5)` is `moveDown 1`. -/
inductive PdfOp where
  | fontSize (n : Nat)
  | text (s : String)
  | textCentered (s : String)
  | textUnderlined (s : String)
  | textJustified (s : String)
  | moveDown (halfLines : Nat)

/-- What a handler sends. -/
inductive Body where
  | json (v : JsVal)
  | text (s : String)
  | pdf (ops : List PdfOp)

/-- The answer of a handler: status code, the headers it sets itself, body. -/
structure Response where
  status : Nat
  headers : List (String × String)
  body : Body

/-- The call `res.status(code).json({ error: msg })`. -/
def errorResponse (code : Nat) (msg : String) : Response :=
  ⟨code, [], .json (obj [("error", str msg)])⟩

/-- The call `res.json(v)`. -/
def jsonResponse (v : JsVal) : Response := ⟨200, [], .json v⟩

/-- What becomes of a request: the handler answers, or an exception escapes
every handler and the process exits without an answer. -/
inductive Outcome where
  | answered (r : Response)
  | crashed

/-- A character that Node accepts in a header value: the tab, the printable
ASCII characters and the characters from U+0080 to U+00FF. -/
def validHeaderChar (c : Char) : Bool :=
  c.toNat = 0x09 || (0x20 ≤ c.toNat && c.toNat ≤ 0x7E) || (0x80 ≤ c.toNat && c.toNat ≤ 0xFF)

/-- The call `res.setHeader(name, value)` with one of the two header names of
this server: it throws (`ERR_INVALID_CHAR`, a `TypeError`) when the value
holds a character that is not accepted. -/
def setHeader (name value : String) : Except JsError (String × String) :=
  if value.data.all validHeaderChar then pure (name, value) else throw .typeError

/-! ## `POST /api/export-csv` -/

/-- The replacement `s.replace(/"/g, '""')` on the characters of `s`. -/
def doubleQuotes : List Char → List Char
  | [] => []
  | c :: cs => if c = '"' then '"' :: '"' :: doubleQuotes cs else c :: doubleQuotes cs

/-- The join `xs.join(sep)` of an array of strings. -/
def joinWith (sep : String) : List String → String
  | [] => ""
  | [x] => x
  | x :: y :: rest => x ++ sep ++ joinWith sep (y :: rest)

/-- A row of `csvData`: an object literal, as its entries in key order. -/
abbrev CsvRow := List (String × JsVal)

/-- One value of a data line: `row[header] || ''`, converted to a string by
its `toString()`, quotes doubled, wrapped in quotes. -/
def csvValue (row : CsvRow) (header : String) : Except JsError String := do
  let value ← ((lookup header row).orElse (str "")).toStr
  pure ("\"" ++ String.mk (doubleQuotes value.data) ++ "\"")

/-- One data line, with its line feed. -/
def csvLine (headers : List String) (row : CsvRow) : Except JsError String := do
  let values ← headers.mapM (csvValue row)
  pure (joinWith "," values ++ "\n")

/-- The text built from `csvData`: the header names joined by commas, then
one line per row. -/
def csvContent (csvData : List CsvRow) : Except JsError String :=
  let headers := match csvData with
    | [] => []
    | row :: _ => row.map Prod.fst
  csvData.foldlM (fun acc row => do
    let line ← csvLine headers row
    pure (acc ++ line)) (joinWith "," headers ++ "\n")

/-- The rows of `data.map((note, index) => ...)` for notes, from index `i`. -/
def notesRows (i : Nat) : List JsVal → List CsvRow
  | [] => []
  | note :: rest =>
    [("Note Number", num ((i : Int) + 1)), ("Note Content", note)] :: notesRows (i + 1) rest

/-- The row of one quiz question. -/
def quizRow (q : JsVal) : Except JsError CsvRow := do
  let question ← q.prop "question"
  let options ← q.prop "options"
  let a ← options.index 0
  let b ← options.index 1
  let c ← options.index 2
  let d ← options.index 3
  let correct ← q.prop "correct"
  let answer ← options.atKey correct
  pure [("Question", question), ("Option A", a), ("Option B", b), ("Option C", c),
    ("Option D", d), ("Correct Answer", answer)]

/-- The row of one flashcard. -/
def flashcardRow (card : JsVal) : Except JsError CsvRow := do
  let question ← card.prop "question"
  let answer ← card.prop "answer"
  pure [("Question", question), ("Answer", answer)]

/-- The call `data.map(f)`: only an array has a `map` method. -/
def mapArray {α : Type} (data : JsVal) (f : List JsVal → Except JsError (List α)) :
    Except JsError (List α) :=
  match data with
  | arr xs => f xs
  | _ => throw .typeError

/-- The body of the `try` block of the handler. -/
def exportCsvTry (body : JsVal) : Except JsError Response := do
  let type ← body.prop "type"
  let data ← body.prop "data"
  let title ← body.prop "title"
  let name ← (title.orElse (str "lecture-data")).toStr
  let filename := name ++ ".csv"
  let csvData ←
    if type.isStr "notes" && data.truthy then
      mapArray data (fun xs => pure (notesRows 0 xs))
    else if type.isStr "quiz" && data.truthy then
      mapArray data (fun xs => xs.mapM quizRow)
    else if type.isStr "flashcards" && data.truthy then
      mapArray data (fun xs => xs.mapM flashcardRow)
    else pure []
  if csvData.length = 0 then
    pure (errorResponse 400 "No data to export")
  else
    let content ← csvContent csvData
    let contentType ← setHeader "Content-Type" "text/csv"
    let disposition ← setHeader "Content-Disposition"
      ("attachment; filename=\"" ++ filename ++ "\"")
    pure ⟨200, [contentType, disposition], .text content⟩

/-- The handler of `POST /api/export-csv` on the parsed request body. -/
def exportCsv (body : JsVal) : Response :=
  match exportCsvTry body with
  | .ok r => r
  | .error _ => errorResponse 500 "Failed to export CSV"

/-- The CSV text of a successful answer, if the handler gave one. -/
def Response.csvText (r : Response) : Option String :=
  match r.status, r.body with
  | 200, .text s => some s
  | _, _ => none

/-- A flashcard row whose question and answer are the strings of `p`. -/
def FlashcardOf (card : JsVal) (p : String × String) : Prop :=
  card.prop "question" = .ok (str p.1) ∧ card.prop "answer" = .ok (str p.2)

/-- A data line in standard CSV quoting: each field wrapped in double
quotes, each double quote inside written twice. -/
def quotedLine (p : String × String) : String :=
  "\"" ++ String.mk (doubleQuotes p.1.data) ++ "\",\"" ++ String.mk (doubleQuotes p.2.data)
    ++ "\"\n"

/-- The row built from a flashcard with string fields. -/
def flashcardCsvRow (p : String × String) : CsvRow :=
  [("Question", str p.1), ("Answer", str p.2)]

/-! ## A standard CSV reader -/

/-- Where the reader stands inside a record. -/
inductive CsvMode where
  | fieldStart
  | unquoted
  | quoted
  | quoteSeen
  | crSeen

/-- The state of the reader: the field and the record being read, and the
records read so far. -/
structure CsvReader where
  mode : CsvMode
  field : List Char
  row : List String
  rows : List (List String)

namespace CsvReader

/-- The reader before the first character. -/
def init : CsvReader := ⟨.fieldStart, [], [], []⟩

/-- A comma: the field ends, the record goes on. -/
def endField (r : CsvReader) : CsvReader :=
  ⟨.fieldStart, [], r.row ++ [String.mk r.field], r.rows⟩

/-- A line break: the field and the record end. -/
def endRecord (r : CsvReader) : CsvReader :=
  ⟨.fieldStart, [], [], r.rows ++ [r.row ++ [String.mk r.field]]⟩

/-- What follows a complete field: a comma, a line feed, or a carriage
return that a line feed must follow. -/
def afterField (r : CsvReader) (c : Char) : Option CsvReader :=
  if c = ',' then some r.endField
  else if c = '\n' then some r.endRecord
  else if c = '\r' then some { r with mode := .crSeen }
  else none

/-- One character.  RFC 4180: a field is either enclosed in double quotes,
and may then hold commas, line breaks and double quotes written twice, or it
is not enclosed and holds none of them; fields are separated by commas and
records by line breaks. -/
def step (r : CsvReader) (c : Char) : Option CsvReader :=
  match r.mode with
  | .fieldStart =>
    if c = '"' then some { r with mode := .quoted }
    else if c = ',' ∨ c = '\n' ∨ c = '\r' then r.afterField c
    else some { r with mode := .unquoted, field := [c] }
  | .unquoted =>
    if c = '"' then none
    else if c = ',' ∨ c = '\n' ∨ c = '\r' then r.afterField c
    else some { r with field := r.field ++ [c] }
  | .quoted =>
    if c = '"' then some { r with mode := .quoteSeen }
    else some { r with field := r.field ++ [c] }
  | .quoteSeen =>
    if c = '"' then some { r with mode := .quoted, field := r.field ++ [c] }
    else r.afterField c
  | .crSeen =>
    if c = '\n' then some r.endRecord else none

/-- The end of the input: the last record needs no line break; an open
quoted field is an error. -/
def finish (r : CsvReader) : Option (List (List String)) :=
  match r.mode with
  | .quoted => none
  | .crSeen => none
  | .fieldStart => if r.row.isEmpty then some r.rows else some (r.endRecord).rows
  | _ => some (r.endRecord).rows

/-- The reader run over the characters of the input. -/
def run (r : CsvReader) : List Char → Option (List (List String))
  | [] => r.finish
  | c :: cs => (r.step c).bind (fun r' => r'.run cs)

end CsvReader

/-- The records of a CSV text as a standard (RFC 4180) reader returns them,
`none` for a text that is not CSV. -/
def rfc4180Read (text : String) : Option (List (List String)) :=
  CsvReader.init.run text.data


/-! ## The hosted completion service and `POST /api/generate-notes` -/

/-- The function `callOpenAI`: `api` is the completion request itself (the
prompt, the model and the token limit go out, the text of the first choice
comes back, or the request fails). -/
def callOpenAI (api : String → String → Nat → Option String) (prompt : String)
    (model : String) (maxTokens : Nat) : Except JsError String :=
  match api prompt model maxTokens with
  | some content => pure content
  | none => throw (.upstream "Failed to process with OpenAI")

/-- The white space of JavaScript, the same set for `trim()` and for `\s`:
tab, line feed, vertical tab, form feed, carriage return, space, no-break
space, the Unicode space separators, the line and paragraph separators and
the byte order mark. -/
def isSpace (c : Char) : Bool :=
  c.toNat ∈ [0x9, 0xA, 0xB, 0xC, 0xD, 0x20, 0xA0, 0x1680, 0x2028, 0x2029, 0x202F, 0x205F,
    0x3000, 0xFEFF] || (0x2000 ≤ c.toNat && c.toNat ≤ 0x200A)

/-- The method `trim()`. -/
def trim (s : List Char) : List Char :=
  ((s.dropWhile isSpace).reverse.dropWhile isSpace).reverse

/-- The split `s.split('\n')`. -/
def splitLines : List Char → List (List Char)
  | [] => [[]]
  | c :: cs =>
    if c = '\n' then [] :: splitLines cs
    else match splitLines cs with
      | [] => [[c]]
      | line :: lines => (c :: line) :: lines

/-- The class `[•\-\*]` of bullet markers. -/
def isBullet (c : Char) : Bool := c = '•' || c = '-' || c = '*'

/-- The replacement `line.replace(/^[•\-\*]\s*/, '')`: a marker that is the
first character of the line goes, with the white space right after it. -/
def stripBullet : List Char → List Char
  | [] => []
  | c :: cs => if isBullet c then cs.dropWhile isSpace else c :: cs

/-- A string is blank when it is empty or holds white space only. -/
def isBlank (s : List Char) : Bool := s.all isSpace

/-- A string begins with a bullet marker, leading white space ignored. -/
def beginsWithBullet (s : List Char) : Bool :=
  match s.dropWhile isSpace with
  | [] => false
  | c :: _ => isBullet c

/-- The array `notesArray` computed from the completion text. -/
def notesArray (notes : String) : List String :=
  (((splitLines notes.data).filter (fun line => trim line != [])).map stripBullet).map String.mk

/-- The prompt of the notes request. -/
def notesPrompt (transcription : JsVal) : Except JsError String := do
  let transcript ← transcription.toStr
  pure ("Convert the following lecture transcription into well-organized study notes. Format the response as bullet points covering key concepts, definitions, and important information. Make it suitable for student review and studying:\n\n"
    ++ transcript ++
    "\n\nPlease provide clear, concise bullet points that capture the main ideas and important details.")

/-- The body of the `try` block of the notes handler. -/
def generateNotesTry (api : String → String → Nat → Option String) (body : JsVal) :
    Except JsError Response := do
  let transcription ← body.prop "transcription"
  if !transcription.truthy then
    pure (errorResponse 400 "No transcription provided")
  else
    let prompt ← notesPrompt transcription
    let notes ← callOpenAI api prompt "gpt-3.5-turbo" 1000
    pure (jsonResponse (obj [("notes", arr ((notesArray notes).map str))]))

/-- The handler of `POST /api/generate-notes`. -/
def generateNotes (api : String → String → Nat → Option String) (body : JsVal) : Response :=
  match generateNotesTry api body with
  | .ok r => r
  | .error _ => errorResponse 500 "Failed to generate study notes"

/-! ## `POST /api/generate-quiz` -/

/-- The prompt of the quiz request. -/
def quizPrompt (transcription : JsVal) : Except JsError String := do
  let transcript ← transcription.toStr
  pure ("Based on the following lecture transcription, create 5 multiple-choice quiz questions. Format the response as a JSON array where each question has the following structure:\n\x7b\n  \"question\": \"Question text\",\n  \"options\": [\"Option A\", \"Option B\", \"Option C\", \"Option D\"],\n  \"correct\": 0,\n  \"id\": 1\n\x7d\n\nThe \"correct\" field should be the index (0-3) of the correct answer in the options array.\n\nLecture content:\n"
    ++ transcript ++
    "\n\nPlease provide exactly 5 well-crafted questions that test understanding of key concepts.")

/-- The fallback quiz `basicQuiz`. -/
def basicQuiz : JsVal :=
  arr [obj [("question", str "What was the main topic of this lecture?"),
    ("options", arr [str "Topic A", str "Topic B", str "Topic C", str "Topic D"]),
    ("correct", num 0),
    ("id", num 1)]]

/-- The body of the outer `try` block of the quiz handler; `jsonParse` is
`JSON.parse`, with `none` where it throws. -/
def generateQuizTry (api : String → String → Nat → Option String)
    (jsonParse : String → Option JsVal) (body : JsVal) : Except JsError Response := do
  let transcription ← body.prop "transcription"
  if !transcription.truthy then
    pure (errorResponse 400 "No transcription provided")
  else
    let prompt ← quizPrompt transcription
    let quizResponse ← callOpenAI api prompt "gpt-3.5-turbo" 1500
    match jsonParse quizResponse with
    | some quiz => pure (jsonResponse (obj [("quiz", quiz)]))
    | none => pure (jsonResponse (obj [("quiz", basicQuiz)]))

/-- The handler of `POST /api/generate-quiz`. -/
def generateQuiz (api : String → String → Nat → Option String)
    (jsonParse : String → Option JsVal) (body : JsVal) : Response :=
  match generateQuizTry api jsonParse body with
  | .ok r => r
  | .error _ => errorResponse 500 "Failed to generate quiz questions"

/-- The shape of a quiz question: a string question, exactly four string
options and an index into them. -/
def WellFormedQuestion (q : JsVal) : Prop :=
  ∃ (question : String) (options : List String) (correct : Nat),
    q.prop "question" = .ok (str question) ∧
    q.prop "options" = .ok (arr (options.map str)) ∧
    q.prop "correct" = .ok (num correct) ∧
    options.length = 4 ∧ correct < options.length

/-! ## `POST /api/export-pdf` -/

/-- The comparison `v > 0`.  The number that a string stands for is not
computed here: `strPositive s` is the comparison `Number(s) > 0` of
JavaScript on the string `s`.  An array or an object is first converted to
a string, which may throw. -/
def gtZero (strPositive : String → Bool) (v : JsVal) : Except JsError Bool :=
  match v with
  | .undefined => pure false
  | .null => pure false
  | .bool b => pure b
  | .num n => pure (decide (0 < n))
  | .str s => pure (strPositive s)
  | v => do
    let s ← v.toStr
    pure (strPositive s)

/-- The test `v.length > 0` on a truthy value: an array and a string have
their length, an object has its own `length` entry if any, a number and a
boolean have none (`undefined > 0` is false). -/
def lengthPositive (strPositive : String → Bool) (v : JsVal) : Except JsError Bool :=
  match v with
  | arr xs => pure (decide (0 < xs.length))
  | str s => pure (s != "")
  | obj kvs => gtZero strPositive (lookup "length" kvs)
  | _ => pure false

/-- The call `v.forEach(f)`: only an array has a `forEach` method. -/
def forEachArray (v : JsVal) (f : List JsVal → Except JsError (List PdfOp)) :
    Except JsError (List PdfOp) :=
  match v with
  | arr xs => f xs
  | _ => throw .typeError

/-- The letter `String.fromCharCode(65 + optIndex)`. -/
def optionLetter (optIndex : Nat) : Char := Char.ofNat ((65 + optIndex) % 65536)

/-- The text of the line of one option, the option already converted to a
string. -/
def optionLineText (correct : JsVal) (optIndex : Nat) (option : String) : String :=
  let marker := if correct.isIndex optIndex then "✓" else " "
  "   " ++ String.mk [optionLetter optIndex] ++ ". " ++ option ++ " " ++ marker

/-- The text of the line of one option. -/
def optionLine (correct : JsVal) (optIndex : Nat) (option : JsVal) : Except JsError String := do
  let text ← option.toStr
  pure (optionLineText correct optIndex text)

/-- The texts of the lines of the options of one question, from index `i`. -/
def optionLines (correct : JsVal) (i : Nat) : List JsVal → Except JsError (List String)
  | [] => pure []
  | option :: rest => do
    let line ← optionLine correct i option
    let lines ← optionLines correct (i + 1) rest
    pure (line :: lines)

/-- The calls made for the question `q` at position `index` of the quiz. -/
def questionOps (index : Nat) (q : JsVal) : Except JsError (List PdfOp) := do
  let question ← q.prop "question"
  let text ← question.toStr
  let options ← q.prop "options"
  let correct ← q.prop "correct"
  let lines ← forEachArray options
    (fun opts => do
      let lines ← optionLines correct 0 opts
      pure (lines.map PdfOp.text))
  pure ([.fontSize 12, .text (toString (index + 1) ++ ". " ++ text)] ++ lines
    ++ [.moveDown 1])

/-- The calls made by `quiz.forEach`, from index `i`. -/
def quizOps (i : Nat) : List JsVal → Except JsError (List PdfOp)
  | [] => pure []
  | q :: rest => do
    let ops ← questionOps i q
    let more ← quizOps (i + 1) rest
    pure (ops ++ more)

/-- The calls made by `notes.forEach`. -/
def notesOps : List JsVal → Except JsError (List PdfOp)
  | [] => pure []
  | note :: rest => do
    let text ← note.toStr
    let more ← notesOps rest
    pure ([.fontSize 12, .text ("• " ++ text)] ++ more)

/-- The calls made on the document, in order, up to `doc.end()`. -/
def pdfContent (strPositive : String → Bool) (title transcription notes quiz : JsVal) :
    Except JsError (List PdfOp) := do
  let titleText ← (title.orElse (str "Lecture Notes")).toStr
  let head : List PdfOp := [.fontSize 20, .textCentered titleText, .moveDown 2]
  let transcriptionPart : List PdfOp ←
    if transcription.truthy then do
      let text ← transcription.toStr
      pure [.fontSize 16, .textUnderlined "Transcription", .fontSize 12,
        .textJustified text, .moveDown 2]
    else pure []
  let notesShown ← if notes.truthy then lengthPositive strPositive notes else pure false
  let notesPart ←
    if notesShown then do
      let ops ← forEachArray notes notesOps
      pure ([.fontSize 16, .textUnderlined "Study Notes"] ++ ops ++ [.moveDown 2])
    else pure []
  let quizShown ← if quiz.truthy then lengthPositive strPositive quiz else pure false
  let quizPart ←
    if quizShown then do
      let ops ← forEachArray quiz (quizOps 0)
      pure ([.fontSize 16, .textUnderlined "Quiz Questions"] ++ ops)
    else pure []
  pure (head ++ transcriptionPart ++ notesPart ++ quizPart)

/-- The body of the `try` block of the PDF handler: the five fields are read
off the body, and `flashcards` is not used after that; the block ends with
`doc.end()`. -/
def exportPdfTry (strPositive : String → Bool) (body : JsVal) :
    Except JsError (JsVal × List PdfOp) := do
  let title ← body.prop "title"
  let transcription ← body.prop "transcription"
  let notes ← body.prop "notes"
  let quiz ← body.prop "quiz"
  let _flashcards ← body.prop "flashcards"
  let ops ← pdfContent strPositive title transcription notes quiz
  pure (title, ops)

/-- The listener of the event `end` of the document, which sets the headers
and sends the document.  It runs after the `try` block is left. -/
def exportPdfEnd (title : JsVal) (ops : List PdfOp) : Except JsError Response := do
  let contentType ← setHeader "Content-Type" "application/pdf"
  let name ← (title.orElse (str "lecture-notes")).toStr
  let disposition ← setHeader "Content-Disposition"
    ("attachment; filename=\"" ++ name ++ ".pdf\"")
  pure ⟨200, [contentType, disposition], .pdf ops⟩

/-- The handler of `POST /api/export-pdf`: an exception inside the `try`
block is answered with status 500; an exception in the listener is caught by
nobody. -/
def exportPdf (strPositive : String → Bool) (body : JsVal) : Outcome :=
  match exportPdfTry strPositive body with
  | .error _ => .answered (errorResponse 500 "Failed to export PDF")
  | .ok (title, ops) =>
    match exportPdfEnd title ops with
    | .ok r => .answered r
    | .error _ => .crashed

/-- The text that a call writes on the document, if it writes one. -/
def PdfOp.written : PdfOp → Option String
  | .text s => some s
  | .textCentered s => some s
  | .textUnderlined s => some s
  | .textJustified s => some s
  | _ => none

/-- The texts written on the document of a successful answer, in order. -/
def Response.pdfTexts (r : Response) : List String :=
  match r.body with
  | .pdf ops => ops.filterMap PdfOp.written
  | _ => []

/-- An option line carries the mark when it ends in the check mark. -/
def carriesMark (line : String) : Bool := line.data.getLast? == some '✓'

/-! ## File upload and `POST /api/transcribe` -/

/-- The function `path.extname` of Node (POSIX flavour): the text from the
last dot of the last path segment on, or the empty string when that segment
has no dot, when its only dot is its first character, or when it is `..`. -/
def extname (path : List Char) : List Char :=
  let trimmed := (path.reverse.dropWhile (fun c => c = '/')).reverse
  let base := (trimmed.reverse.takeWhile (fun c => c ≠ '/')).reverse
  let ext := '.' :: (base.reverse.takeWhile (fun c => c ≠ '.')).reverse
  if !base.contains '.' then []
  else if base.length = ext.length then []
  else if base = ['.', '.'] then []
  else ext

/-- The method `toLowerCase()`.  Outside ASCII, JavaScript folds two
characters into ASCII letters (the Kelvin sign to `k`, the dotted capital I
to `i` with a combining dot); neither letter occurs in an allowed extension. -/
def toLowerCase (s : List Char) : List Char := s.map Char.toLower

/-- The list `allowedTypes`. -/
def allowedTypes : List String := [".mp3", ".wav", ".m4a", ".ogg", ".webm", ".mp4"]

/-- The upload option `fileFilter`: `true` when the file is accepted, `false`
when the callback gets the error `Invalid file type`. -/
def fileFilter (originalname : String) : Bool :=
  allowedTypes.contains (String.mk (toLowerCase (extname originalname.data)))

/-- The upload option `limits.fileSize`: 100 MB. -/
def fileSizeLimit : Nat := 100 * 1024 * 1024

/-- A file part of a multipart request. -/
structure FilePart where
  fieldname : String
  originalname : String
  size : Nat

/-- The storage option `filename`: `now` is `Date.now()` and `rand` is
`Math.round(Math.random() * 1E9)`. -/
def storageFilename (now rand : Nat) (file : FilePart) : String :=
  file.fieldname ++ "-" ++ (toString now ++ "-" ++ toString rand)
    ++ String.mk (extname file.originalname.data)

/-- An operation on the files of the upload directory. -/
inductive FsOp where
  | write (path : String)
  | unlink (path : String)
deriving DecidableEq

/-- The files of the upload directory after the operations `ops`. -/
def filesAfter (files : List String) : List FsOp → List String
  | [] => files
  | .write p :: ops => filesAfter (if p ∈ files then files else files ++ [p]) ops
  | .unlink p :: ops => filesAfter (files.filter (fun f => f != p)) ops

/-- An error handed to `next`. -/
inductive RouteError where
  | multer (code : String)
  | plain (message : String)

/-- What `upload.single` leaves for the handler. -/
inductive Uploaded where
  | noFile
  | stored (path : String)
  | failed (error : RouteError)

/-- The middleware `upload.single(field)` of multer on a request with at
most one file part, with the operations it makes on the upload directory.
Multer asks `fileFilter` before it hands the file to the storage; a file
over the size limit is stored up to the limit and then removed, and the
request fails with `LIMIT_FILE_SIZE`; a file part under another field name
fails with `LIMIT_UNEXPECTED_FILE`. -/
def uploadSingle (field : String) (now rand : Nat) (part : Option FilePart) :
    Uploaded × List FsOp :=
  match part with
  | none => (.noFile, [])
  | some file =>
    if file.fieldname != field then (.failed (.multer "LIMIT_UNEXPECTED_FILE"), [])
    else if !fileFilter file.originalname then
      (.failed (.plain "Invalid file type. Please upload audio files only."), [])
    else
      let path := "uploads/" ++ storageFilename now rand file
      if fileSizeLimit < file.size then
        (.failed (.multer "LIMIT_FILE_SIZE"), [.write path, .unlink path])
      else (.stored path, [.write path])

/-- The function `transcribeAudio`: `whisper` is the transcription request
itself (the stored file goes out, the text comes back, or the request
fails). -/
def transcribeAudio (whisper : String → Option String) (audioFilePath : String) :
    Except JsError String :=
  match whisper audioFilePath with
  | some text => pure text
  | none => throw (.upstream "Failed to transcribe audio")

/-- The handler of `POST /api/transcribe` after the upload middleware, with
the operations it makes on the upload directory. -/
def transcribeHandler (whisper : String → Option String) (file : Option String) :
    Response × List FsOp :=
  match file with
  | none => (errorResponse 400 "No audio file uploaded", [])
  | some path =>
    match transcribeAudio whisper path with
    | .ok transcription =>
      (jsonResponse (obj [("transcription", str transcription)]), [.unlink path])
    | .error _ => (errorResponse 500 "Failed to transcribe audio", [])

/-- The error handling middleware. -/
def errorMiddleware (error : RouteError) : Response :=
  match error with
  | .multer code =>
    if code = "LIMIT_FILE_SIZE" then errorResponse 400 "File too large. Maximum size is 100MB."
    else errorResponse 500 "Something went wrong!"
  | .plain _ => errorResponse 500 "Something went wrong!"

/-- The route `POST /api/transcribe`: upload middleware, then the handler,
or the error middleware when the upload failed. -/
def transcribeRoute (whisper : String → Option String) (now rand : Nat)
    (part : Option FilePart) : Response × List FsOp :=
  match uploadSingle "audio" now rand part with
  | (.failed error, ops) => (errorMiddleware error, ops)
  | (.noFile, ops) =>
    let (response, more) := transcribeHandler whisper none
    (response, ops ++ more)
  | (.stored path, ops) =>
    let (response, more) := transcribeHandler whisper (some path)
    (response, ops ++ more)

/-! ## `POST /api/generate-flashcards` -/

/-- The prompt of the flashcards request. -/
def flashcardsPrompt (transcription : JsVal) : Except JsError String := do
  let transcript ← transcription.toStr
  pure ("Based on the following lecture transcription, create 6 flashcards for studying. Format the response as a JSON array where each flashcard has the following structure:\n\x7b\n  \"question\": \"Question or term\",\n  \"answer\": \"Answer or definition\",\n  \"id\": 1\n\x7d\n\nCreate flashcards that focus on key terms, concepts, and important information from the lecture.\n\nLecture content:\n"
    ++ transcript ++
    "\n\nPlease provide exactly 6 flashcards.")

/-- The fallback list `basicFlashcards`. -/
def basicFlashcards : JsVal :=
  arr [obj [("question", str "Key concept from this lecture"),
    ("answer", str "Answer based on lecture content"),
    ("id", num 1)]]

/-- The body of the outer `try` block of the flashcards handler; `jsonParse`
is `JSON.parse`, with `none` where it throws. -/
def generateFlashcardsTry (api : String → String → Nat → Option String)
    (jsonParse : String → Option JsVal) (body : JsVal) : Except JsError Response := do
  let transcription ← body.prop "transcription"
  if !transcription.truthy then
    pure (errorResponse 400 "No transcription provided")
  else
    let prompt ← flashcardsPrompt transcription
    let flashcardsResponse ← callOpenAI api prompt "gpt-3.5-turbo" 1200
    match jsonParse flashcardsResponse with
    | some flashcards => pure (jsonResponse (obj [("flashcards", flashcards)]))
    | none => pure (jsonResponse (obj [("flashcards", basicFlashcards)]))

/-- The handler of `POST /api/generate-flashcards`. -/
def generateFlashcards (api : String → String → Nat → Option String)
    (jsonParse : String → Option JsVal) (body : JsVal) : Response :=
  match generateFlashcardsTry api jsonParse body with
  | .ok r => r
  | .error _ => errorResponse 500 "Failed to generate flashcards"

/-- The shape of a quiz question of the data model: exactly four options and
an integer `correct` that is an index into them. -/
def QuizQuestionShape (q : JsVal) : Prop :=
  ∃ (options : List JsVal) (correct : Int),
    q.prop "options" = .ok (arr options) ∧
    q.prop "correct" = .ok (num correct) ∧
    options.length = 4 ∧ 0 ≤ correct ∧ correct < options.length

/-- A `JSON.parse` that knows one text: a quiz of one question with a single
option and the correct index 5. -/
def parseShortQuiz (text : String) : Option JsVal :=
  if text = "[\x7b\"question\":\"Q\",\"options\":[\"only\"],\"correct\":5,\"id\":1\x7d]" then
    some (arr [obj [("question", str "Q"), ("options", arr [str "only"]), ("correct", num 5),
      ("id", num 1)]])
  else none

/-- A `JSON.parse` that knows one text: a quiz of one question with four
options and the correct index 2. -/
def parseSampleQuiz (text : String) : Option JsVal :=
  if text = "[\x7b\"question\":\"Q\",\"options\":[\"w\",\"x\",\"y\",\"z\"],\"correct\":2,\"id\":1\x7d]" then
    some (arr [obj [("question", str "Q"), ("options", arr [str "w", str "x", str "y", str "z"]),
      ("correct", num 2), ("id", num 1)]])
  else none

/-! ## Lines, white space and bullet markers, as the specification words them -/

/-- The white space characters: tab, line feed, vertical tab, form feed,
carriage return, space, no-break space, the Unicode space separators, the
line and paragraph separators and the byte order mark. -/
def whiteSpaceChars : List Char :=
  ['\t', '\n', '\x0b', '\x0c', '\r', ' ', '\u00a0', '\u1680', '\u2000', '\u2001', '\u2002',
    '\u2003', '\u2004', '\u2005', '\u2006', '\u2007', '\u2008', '\u2009', '\u200a', '\u2028',
    '\u2029', '\u202f', '\u205f', '\u3000', '\ufeff']

/-- The bullet markers. -/
def bulletMarkers : List Char := ['•', '-', '*']

/-- The lines of a newline-delimited text. -/
def textLines (text : String) : List (List Char) := text.data.splitOn '\n'

/-- A line is blank when it holds white space only (or nothing). -/
def BlankLine (line : List Char) : Prop := ∀ c ∈ line, c ∈ whiteSpaceChars

/-- A line is blank, as a test. -/
def blankLine (line : List Char) : Bool := line.all (fun c => c ∈ whiteSpaceChars)

/-- The note that belongs to a line: a line that starts with a bullet marker
without that one marker and without the white space directly after it, any
other line unchanged. -/
def NoteOf (line : List Char) (note : String) : Prop :=
  (∀ c rest, line = c :: rest → c ∈ bulletMarkers →
    ∃ ws, (∀ w ∈ ws, w ∈ whiteSpaceChars) ∧ rest = ws ++ note.data ∧
      ∀ d tail, note.data = d :: tail → d ∉ whiteSpaceChars) ∧
  ((∀ c rest, line = c :: rest → c ∉ bulletMarkers) → note.data = line)

/-- A string begins with a bullet marker, leading white space ignored. -/
def BeginsWithMarker (s : List Char) : Prop :=
  ∃ ws c rest, s = ws ++ c :: rest ∧ (∀ w ∈ ws, w ∈ whiteSpaceChars) ∧ c ∈ bulletMarkers

/-! ## The client: flashcard cursor and quiz answers (`app.js`) -/

/-- The cursor `currentFlashcardIndex` after `displayFlashcards()`. -/
def displayFlashcards (flashcards : List JsVal) (currentFlashcardIndex : Int) : Int :=
  if flashcards.length > 0 then 0 else currentFlashcardIndex

/-- The cursor after `nextFlashcard()`. -/
def nextFlashcard (flashcards : List JsVal) (currentFlashcardIndex : Int) : Int :=
  if currentFlashcardIndex < (flashcards.length : Int) - 1 then currentFlashcardIndex + 1
  else currentFlashcardIndex

/-- The cursor after `previousFlashcard()`. -/
def previousFlashcard (currentFlashcardIndex : Int) : Int :=
  if currentFlashcardIndex > 0 then currentFlashcardIndex - 1 else currentFlashcardIndex

/-- A call of one of the two cursor functions. -/
inductive FlashcardCall where
  | next
  | previous

/-- The cursor after one call. -/
def FlashcardCall.apply (flashcards : List JsVal) (call : FlashcardCall) (i : Int) : Int :=
  match call with
  | .next => nextFlashcard flashcards i
  | .previous => previousFlashcard i

/-- The cursor after a sequence of calls. -/
def runFlashcardCalls (flashcards : List JsVal) (calls : List FlashcardCall) (i : Int) : Int :=
  calls.foldl (fun i call => call.apply flashcards i) i

/-- A question of the quiz on the client: its id and its correct index (the
text and the options play no part in the score). -/
structure QuizQuestion where
  id : Int
  correct : Int

/-- The object `quizAnswers`: its entries, question id to answer index. -/
abbrev QuizAnswers := List (Int × Int)

/-- The read `quizAnswers[id]`, `none` for `undefined`. -/
def getAnswer (quizAnswers : QuizAnswers) (id : Int) : Option Int :=
  match quizAnswers with
  | [] => none
  | (k, v) :: rest => if k = id then some v else getAnswer rest id

/-- The function `saveQuizAnswer`: the assignment
`quizAnswers[questionId] = answerIndex`. -/
def saveQuizAnswer (quizAnswers : QuizAnswers) (questionId answerIndex : Int) : QuizAnswers :=
  (questionId, answerIndex) :: quizAnswers.filter (fun entry => entry.1 != questionId)

/-- The object `quizAnswers` after `resetQuiz()`. -/
def resetQuiz : QuizAnswers := []

/-- The counter `correct` at the end of `checkQuizAnswers()`. -/
def checkQuizAnswers (quiz : List QuizQuestion) (quizAnswers : QuizAnswers) : Nat :=
  quiz.foldl (fun correct question =>
    if getAnswer quizAnswers question.id = some question.correct then correct + 1 else correct) 0

/-- The object `quizAnswers` after a sequence of `saveQuizAnswer` calls on
the empty object. -/
def answersAfter (saves : List (Int × Int)) : QuizAnswers :=
  saves.foldl (fun quizAnswers save => saveQuizAnswer quizAnswers save.1 save.2) resetQuiz

/-! ## Expected CSV records and PDF texts -/

/-- A field in CSV quoting: wrapped in double quotes, each double quote
inside written twice. -/
def quoteField (s : String) : String :=
  "\"" ++ String.mk (doubleQuotes s.data) ++ "\""

/-- The records expected for notes: the number of the note, counted from
`n`, and the note. -/
def noteRecords (n : Nat) : List String → List (List String)
  | [] => []
  | note :: rest => [toString n, note] :: noteRecords (n + 1) rest

/-- A quiz question of the data model, as far as the export reads it. -/
structure QuizEntry where
  question : String
  options : List String
  correct : Nat

/-- The request value `q` is the question `entry`, with exactly four options
and a correct index into them. -/
def QuizRowOf (q : JsVal) (entry : QuizEntry) : Prop :=
  q.prop "question" = .ok (str entry.question) ∧
  q.prop "options" = .ok (arr (entry.options.map str)) ∧
  q.prop "correct" = .ok (num entry.correct) ∧
  entry.options.length = 4 ∧ entry.correct < 4

/-- The record expected for a quiz question: the question, the four options,
the text of the option at index `correct`. -/
def quizRecord (entry : QuizEntry) : List String :=
  [entry.question] ++ entry.options ++ [entry.options.getD entry.correct ""]

/-- A lecture record of the data model, as far as export-pdf reads it. -/
structure LectureRecord where
  title : String
  transcription : String
  studyNotes : List String
  quiz : List QuizEntry
  flashcards : List (String × String)

/-- The JSON value of a quiz question. -/
def QuizEntry.toJs (entry : QuizEntry) : JsVal :=
  obj [("question", str entry.question), ("options", arr (entry.options.map str)),
    ("correct", num entry.correct)]

/-- The request body of export-pdf that carries a lecture record. -/
def LectureRecord.toBody (r : LectureRecord) : JsVal :=
  obj [("title", str r.title), ("transcription", str r.transcription),
    ("notes", arr (r.studyNotes.map str)), ("quiz", arr (r.quiz.map QuizEntry.toJs)),
    ("flashcards", arr (r.flashcards.map (fun card =>
      obj [("question", str card.1), ("answer", str card.2)])))]

/-- The calls that render one question: its numbered line, the lines of its
options, half a line of space. -/
def questionBlock (n : Nat) (question : String) (lines : List String) : List PdfOp :=
  [.fontSize 12, .text (toString n ++ ". " ++ question)] ++ lines.map PdfOp.text
    ++ [.moveDown 1]

/-- The capital letter number `i`, counted from 0. -/
def capitalLetter (i : Nat) : Char := "ABCDEFGHIJKLMNOPQRSTUVWXYZ".data.getD i ' '

/-- The expected lines of the options of a question, from index `i`: three
blanks, the letter of the option, the option, the mark or a blank. -/
def expectedOptionTexts (correct : Nat) (i : Nat) : List String → List String
  | [] => []
  | option :: rest =>
    ("   " ++ String.mk [capitalLetter i] ++ ". " ++ option ++ " "
        ++ (if i = correct then "✓" else " "))
      :: expectedOptionTexts correct (i + 1) rest

/-- The expected lines of the questions, numbered from `n`: the numbered
question followed by the lines of its options. -/
def expectedQuestionTexts (n : Nat) : List QuizEntry → List String
  | [] => []
  | entry :: rest =>
    (toString n ++ ". " ++ entry.question)
      :: (expectedOptionTexts entry.correct 0 entry.options ++ expectedQuestionTexts (n + 1) rest)

/-- The expected texts of the document: the title (`Lecture Notes` when the
record has none), then the sections Transcription, Study Notes and Quiz
Questions in this order, each one exactly when its input is not empty. -/
def expectedPdfTexts (r : LectureRecord) : List String :=
  [if r.title = "" then "Lecture Notes" else r.title]
    ++ (if r.transcription = "" then [] else ["Transcription", r.transcription])
    ++ (if r.studyNotes.isEmpty then []
        else "Study Notes" :: r.studyNotes.map (fun note => "• " ++ note))
    ++ (if r.quiz.isEmpty then [] else "Quiz Questions" :: expectedQuestionTexts 1 r.quiz)

/-! ## Theorems -/

namespace CsvReader

theorem run_quoted_body (s : List Char) (f : List Char) (row : List String)
    (rows : List (List String)) (rest : List Char) :
    run ⟨.quoted, f, row, rows⟩ (doubleQuotes s ++ '"' :: rest)
      = run ⟨.quoteSeen, f ++ s, row, rows⟩ rest := by
  induction s generalizing f with
  | nil => simp [doubleQuotes, run, step]
  | cons c cs ih =>
    by_cases hc : c = '"'
    · subst hc
      simp [doubleQuotes, run, step, ih]
    · simp [doubleQuotes, hc, run, step, ih]

theorem run_quoted_field (s : List Char) (row : List String) (rows : List (List String))
    (c : Char) (hc : c ≠ '"') (rest : List Char) :
    run ⟨.fieldStart, [], row, rows⟩ ('"' :: (doubleQuotes s ++ '"' :: c :: rest))
      = (afterField ⟨.quoteSeen, s, row, rows⟩ c).bind (fun r => r.run rest) := by
  have h := run_quoted_body s [] row rows (c :: rest)
  simp only [List.nil_append] at h
  rw [run, step]
  simp only [↓reduceIte, Option.some_bind, h]
  simp [run, step, hc]

theorem run_quoted_line (vals : List String) (hvals : vals ≠ []) (row : List String)
    (rows : List (List String)) (rest : List Char) :
    run ⟨.fieldStart, [], row, rows⟩
        ((joinWith "," (vals.map quoteField) ++ "\n").data ++ rest)
      = run ⟨.fieldStart, [], [], rows ++ [row ++ vals]⟩ rest := by
  induction vals generalizing row with
  | nil => exact absurd rfl hvals
  | cons v vs ih =>
    cases vs with
    | nil =>
      have h := run_quoted_field v.data row rows '\n' (by decide) rest
      simp only [List.map_cons, List.map_nil, joinWith, quoteField, String.data_append,
        List.append_assoc]
      simp only [String.data_append, List.append_assoc] at h ⊢
      have hq : ("\"" : String).data = ['"'] := rfl
      have hn : ("\n" : String).data = ['\n'] := rfl
      simp only [hq, hn, List.singleton_append, List.cons_append, List.nil_append] at h ⊢
      rw [h]
      simp [afterField, endRecord]
    | cons w ws =>
      have h := run_quoted_field v.data row rows ',' (by decide)
        ((joinWith "," ((w :: ws).map quoteField) ++ "\n").data ++ rest)
      have hq : ("\"" : String).data = ['"'] := rfl
      have hc : ("," : String).data = [','] := rfl
      simp only [List.map_cons, joinWith, quoteField, String.data_append, List.append_assoc, hq,
        hc, List.singleton_append, List.cons_append, List.nil_append] at h ⊢
      rw [h]
      simp only [afterField, ↓reduceIte, Option.some_bind, endField]
      have := ih (by simp) (row ++ [v])
      simp only [List.map_cons, joinWith, quoteField, String.data_append, List.append_assoc, hq,
        hc, List.singleton_append, List.cons_append, List.nil_append] at this
      rw [this]

theorem run_quoted_lines (records : List (List String)) (hne : ∀ r ∈ records, r ≠ [])
    (rows : List (List String)) (rest : List Char) :
    run ⟨.fieldStart, [], [], rows⟩
        (records.flatMap (fun r => (joinWith "," (r.map quoteField) ++ "\n").data) ++ rest)
      = run ⟨.fieldStart, [], [], rows ++ records⟩ rest := by
  induction records generalizing rows with
  | nil => simp
  | cons r rs ih =>
    simp only [List.flatMap_cons, List.append_assoc]
    rw [run_quoted_line r (hne r (List.mem_cons_self r rs)),
      ih (fun x hx => hne x (List.mem_cons_of_mem r hx))]
    simp

end CsvReader

theorem foldl_append_data {α : Type} (f : α → String) (l : List α) (init : String) :
    (l.foldl (fun acc x => acc ++ f x) init).data = init.data ++ l.flatMap (fun x => (f x).data) := by
  induction l generalizing init with
  | nil => simp
  | cons x xs ih => simp [ih]

theorem prop_ok_of_prop_ok {body v : JsVal} {k : String} (h : body.prop k = .ok v)
    (k' : String) : body.prop k' = .ok (body.named k') := by
  cases body <;> first | rfl | cases h

theorem orElse_str_toStr (q : String) : ((str q).orElse (str "")).toStr = .ok q := by
  unfold JsVal.orElse JsVal.truthy
  by_cases h : q = ""
  · subst h; simp [JsVal.toStr, pure, Except.pure]
  · simp [h, JsVal.toStr, pure, Except.pure]

theorem csvValue_str (row : CsvRow) (header s : String) (h : lookup header row = str s) :
    csvValue row header = .ok (quoteField s) := by
  simp only [csvValue, h, orElse_str_toStr, bind, Except.bind, quoteField]
  rfl

theorem foldlM_csvLine (headers : List String) (csvData : List CsvRow)
    (records : List (List String))
    (h : List.Forall₂ (fun row record =>
      csvLine headers row = .ok (joinWith "," (record.map quoteField) ++ "\n")) csvData records)
    (init : String) :
    csvData.foldlM (fun acc row => do
        let line ← csvLine headers row
        pure (acc ++ line)) init
      = .ok (records.foldl (fun acc r => acc ++ (joinWith "," (r.map quoteField) ++ "\n")) init) := by
  induction h generalizing init with
  | nil => rfl
  | cons hrow _ ih =>
    simp only [List.foldlM_cons, hrow, bind, Except.bind, pure, Except.pure, List.foldl_cons]
    exact ih _

/-- The text of `csvContent` and what the reader makes of it, for rows whose
lines are quoted records and a header line that reads back as the header
names. -/
theorem read_csvContent (csvData : List CsvRow) (headers : List String)
    (records : List (List String))
    (hkeys : ∀ row rest, csvData = row :: rest → row.map Prod.fst = headers)
    (hdata : csvData ≠ [])
    (hhead : ∀ rest, CsvReader.run CsvReader.init ((joinWith "," headers ++ "\n").data ++ rest)
      = CsvReader.run ⟨.fieldStart, [], [], [headers]⟩ rest)
    (hlines : List.Forall₂ (fun row record =>
      csvLine headers row = .ok (joinWith "," (record.map quoteField) ++ "\n")) csvData records)
    (hne : ∀ r ∈ records, r ≠ []) :
    csvContent csvData
        = .ok (records.foldl (fun acc r => acc ++ (joinWith "," (r.map quoteField) ++ "\n"))
            (joinWith "," headers ++ "\n")) ∧
      rfc4180Read (records.foldl (fun acc r => acc ++ (joinWith "," (r.map quoteField) ++ "\n"))
          (joinWith "," headers ++ "\n"))
        = some (headers :: records) := by
  cases csvData with
  | nil => exact absurd rfl hdata
  | cons row rest =>
    have hk := hkeys row rest rfl
    refine ⟨?_, ?_⟩
    · simp only [csvContent, hk]
      exact foldlM_csvLine headers (row :: rest) records hlines _
    · rw [rfc4180Read, foldl_append_data, hhead]
      have h := CsvReader.run_quoted_lines records hne [headers] []
      simp only [List.append_nil] at h
      rw [h]
      simp [CsvReader.run, CsvReader.finish]

theorem all_validHeaderChar_append (a b : List Char) :
    (a ++ b).all validHeaderChar = (a.all validHeaderChar && b.all validHeaderChar) := by
  simp [List.all_append]

theorem setHeader_csv (name : String) (h : name.data.all validHeaderChar = true) :
    setHeader "Content-Disposition" ("attachment; filename=\"" ++ (name ++ ".csv") ++ "\"")
      = .ok ("Content-Disposition", "attachment; filename=\"" ++ (name ++ ".csv") ++ "\"") := by
  have h1 : ("attachment; filename=\"" : String).data.all validHeaderChar = true := by decide
  have h2 : (".csv" : String).data.all validHeaderChar = true := by decide
  have h3 : ("\"" : String).data.all validHeaderChar = true := by decide
  simp only [setHeader, String.data_append, all_validHeaderChar_append, h, h1, h2, h3,
    Bool.and_self, ↓reduceIte]
  rfl

theorem setHeader_pdf (name : String) (h : name.data.all validHeaderChar = true) :
    setHeader "Content-Disposition" ("attachment; filename=\"" ++ name ++ ".pdf\"")
      = .ok ("Content-Disposition", "attachment; filename=\"" ++ name ++ ".pdf\"") := by
  have h1 : ("attachment; filename=\"" : String).data.all validHeaderChar = true := by decide
  have h2 : (".pdf\"" : String).data.all validHeaderChar = true := by decide
  simp only [setHeader, String.data_append, all_validHeaderChar_append, h, h1, h2,
    Bool.and_self, ↓reduceIte]
  rfl

theorem mapM_flashcardRow (cards : List JsVal) (qa : List (String × String))
    (h : List.Forall₂ FlashcardOf cards qa) :
    cards.mapM flashcardRow = .ok (qa.map flashcardCsvRow) := by
  induction h with
  | nil => rfl
  | cons hp _ ih =>
    obtain ⟨hq, ha⟩ := hp
    simp only [List.mapM_cons, ih, flashcardRow, hq, ha, List.map_cons, flashcardCsvRow]
    rfl

theorem flashcard_lines (qa : List (String × String)) :
    List.Forall₂ (fun row record =>
      csvLine ["Question", "Answer"] row = .ok (joinWith "," (record.map quoteField) ++ "\n"))
      (qa.map flashcardCsvRow) (qa.map (fun p => [p.1, p.2])) := by
  induction qa with
  | nil => exact List.Forall₂.nil
  | cons p ps ih =>
    refine List.Forall₂.cons ?_ ih
    simp only [csvLine, List.mapM_cons, List.mapM_nil, flashcardCsvRow]
    rw [csvValue_str _ "Question" p.1 (by simp [JsVal.lookup]),
      csvValue_str _ "Answer" p.2 (by simp [JsVal.lookup])]
    rfl

theorem quotedLine_eq (p : String × String) :
    joinWith "," ([p.1, p.2].map quoteField) ++ "\n" = quotedLine p := by
  apply String.ext
  simp [joinWith, quoteField, quotedLine]

theorem exportCsv_text_notes (body title : JsVal) (name text : String) (xs : List JsVal)
    (htype : body.prop "type" = .ok (str "notes")) (hdata : body.prop "data" = .ok (arr xs))
    (htitle : body.prop "title" = .ok title)
    (hname : (title.orElse (str "lecture-data")).toStr = .ok name)
    (hvalid : name.data.all validHeaderChar = true)
    (hne : notesRows 0 xs ≠ []) (htext : csvContent (notesRows 0 xs) = .ok text) :
    (exportCsv body).csvText = some text := by
  have hct : setHeader "Content-Type" "text/csv" = .ok ("Content-Type", "text/csv") := rfl
  simp only [exportCsv, exportCsvTry, htype, hdata, htitle, hname, bind, Except.bind,
    JsVal.isStr, JsVal.truthy, mapArray, htext, hct, setHeader_csv name hvalid]
  simp [hne, Response.csvText, pure, Except.pure, htext, hct, setHeader_csv name hvalid]

theorem exportCsv_text_quiz (body title : JsVal) (name text : String) (qs : List JsVal)
    (csvData : List CsvRow)
    (htype : body.prop "type" = .ok (str "quiz")) (hdata : body.prop "data" = .ok (arr qs))
    (htitle : body.prop "title" = .ok title)
    (hname : (title.orElse (str "lecture-data")).toStr = .ok name)
    (hvalid : name.data.all validHeaderChar = true)
    (hmap : qs.mapM quizRow = .ok csvData) (hne : csvData ≠ [])
    (htext : csvContent csvData = .ok text) :
    (exportCsv body).csvText = some text := by
  have hct : setHeader "Content-Type" "text/csv" = .ok ("Content-Type", "text/csv") := rfl
  simp only [exportCsv, exportCsvTry, htype, hdata, htitle, hname, bind, Except.bind,
    JsVal.isStr, JsVal.truthy, mapArray, hmap]
  simp [hne, Response.csvText, pure, Except.pure, htext, hct, setHeader_csv name hvalid]

theorem exportCsv_text_flashcards (body title : JsVal) (name text : String) (cards : List JsVal)
    (csvData : List CsvRow)
    (htype : body.prop "type" = .ok (str "flashcards"))
    (hdata : body.prop "data" = .ok (arr cards))
    (htitle : body.prop "title" = .ok title)
    (hname : (title.orElse (str "lecture-data")).toStr = .ok name)
    (hvalid : name.data.all validHeaderChar = true)
    (hmap : cards.mapM flashcardRow = .ok csvData) (hne : csvData ≠ [])
    (htext : csvContent csvData = .ok text) :
    (exportCsv body).csvText = some text := by
  have hct : setHeader "Content-Type" "text/csv" = .ok ("Content-Type", "text/csv") := rfl
  simp only [exportCsv, exportCsvTry, htype, hdata, htitle, hname, bind, Except.bind,
    JsVal.isStr, JsVal.truthy, mapArray, hmap]
  simp [hne, Response.csvText, pure, Except.pure, htext, hct, setHeader_csv name hvalid]

theorem flashcards_csv (qa : List (String × String)) (hqa : qa ≠ []) :
    csvContent (qa.map flashcardCsvRow)
        = .ok (qa.foldl (fun acc p => acc ++ quotedLine p) "Question,Answer\n") ∧
      rfc4180Read (qa.foldl (fun acc p => acc ++ quotedLine p) "Question,Answer\n")
        = some (["Question", "Answer"] :: qa.map (fun p => [p.1, p.2])) := by
  have hrows : qa.map flashcardCsvRow ≠ [] := by simpa using hqa
  have h := read_csvContent (qa.map flashcardCsvRow) ["Question", "Answer"]
    (qa.map (fun p => [p.1, p.2]))
    (by
      intro row rest h
      cases qa with
      | nil => exact absurd rfl hqa
      | cons p ps =>
        simp only [List.map_cons] at h
        injection h with h1 _
        rw [← h1]
        rfl)
    hrows (fun rest => rfl) (flashcard_lines qa)
    (by
      intro r hr
      simp only [List.mem_map] at hr
      obtain ⟨p, _, rfl⟩ := hr
      simp)
  have hfold : (qa.map (fun p => [p.1, p.2])).foldl
      (fun acc r => acc ++ (joinWith "," (r.map quoteField) ++ "\n"))
      (joinWith "," ["Question", "Answer"] ++ "\n")
      = qa.foldl (fun acc p => acc ++ quotedLine p) "Question,Answer\n" := by
    rw [List.foldl_map]
    have : (fun (acc : String) (p : String × String) =>
        acc ++ (joinWith "," ([p.1, p.2].map quoteField) ++ "\n"))
        = (fun acc p => acc ++ quotedLine p) := by
      funext acc p
      rw [quotedLine_eq]
    rw [this]
    rfl
  rw [hfold] at h
  exact h

/-- C1. For every non-empty list of flashcard rows whose question and answer
are strings, and a title that can stand in the `Content-Disposition` header
(none, or a text of tab, printable ASCII and Latin-1 characters), the CSV
text of export-csv is the header line followed by one line per row in which
both fields are wrapped in double quotes with every inner double quote
doubled, and a standard CSV reader returns, after the header record, exactly
the original question and answer of every row, in input order. -/
theorem exportCsv_flashcards_round_trip (body title : JsVal) (name : String)
    (cards : List JsVal) (qa : List (String × String))
    (htype : body.prop "type" = .ok (str "flashcards"))
    (hdata : body.prop "data" = .ok (arr cards))
    (htitle : body.prop "title" = .ok title)
    (hname : (title.orElse (str "lecture-data")).toStr = .ok name)
    (hvalid : name.data.all validHeaderChar = true)
    (hcards : List.Forall₂ FlashcardOf cards qa)
    (hne : cards ≠ []) :
    ∃ text, (exportCsv body).csvText = some text ∧
      text = qa.foldl (fun acc p => acc ++ quotedLine p) "Question,Answer\n" ∧
      rfc4180Read text = some (["Question", "Answer"] :: qa.map (fun p => [p.1, p.2])) := by
  have hqa : qa ≠ [] := by
    intro h
    subst h
    cases hcards
    exact hne rfl
  obtain ⟨hcontent, hread⟩ := flashcards_csv qa hqa
  exact ⟨_, exportCsv_text_flashcards body title name _ cards _ htype hdata htitle hname hvalid
    (mapM_flashcardRow cards qa hcards) (by simpa using hqa) hcontent, rfl, hread⟩

/-- Witness of C1: one flashcard whose fields hold quotes, a comma and a
line break, under the title `Biology 1`; the CSV text is spelled out. -/
theorem exportCsv_flashcards_round_trip_witness :
    (∃ text,
      (exportCsv (obj [("type", str "flashcards"), ("title", str "Biology 1"),
        ("data", arr [obj [("question", str "say \"hi\", ok"), ("answer", str "a\nb")]])])).csvText
        = some text ∧
      text = [("say \"hi\", ok", "a\nb")].foldl (fun acc p => acc ++ quotedLine p)
        "Question,Answer\n" ∧
      rfc4180Read text = some (["Question", "Answer"] ::
        [("say \"hi\", ok", "a\nb")].map (fun p => [p.1, p.2]))) ∧
    (exportCsv (obj [("type", str "flashcards"), ("title", str "Biology 1"),
        ("data", arr [obj [("question", str "say \"hi\", ok"), ("answer", str "a\nb")]])])).csvText
      = some "Question,Answer\n\"say \"\"hi\"\", ok\",\"a\nb\"\n" ∧
    rfc4180Read "Question,Answer\n\"say \"\"hi\"\", ok\",\"a\nb\"\n"
      = some [["Question", "Answer"], ["say \"hi\", ok", "a\nb"]] :=
  ⟨exportCsv_flashcards_round_trip
    (obj [("type", str "flashcards"), ("title", str "Biology 1"),
      ("data", arr [obj [("question", str "say \"hi\", ok"), ("answer", str "a\nb")]])])
    (str "Biology 1") "Biology 1"
    [obj [("question", str "say \"hi\", ok"), ("answer", str "a\nb")]]
    [("say \"hi\", ok", "a\nb")] rfl rfl rfl rfl (by decide)
    (List.Forall₂.cons ⟨rfl, rfl⟩ List.Forall₂.nil) (by simp),
   by decide, by decide⟩

/-- C2, as stated, fails: for the request with type `flashcards` and data
`[{question: "Q1", answer: "A,1"}]` the first line of the CSV text is not the
quoted header `"Question","Answer"`. -/
theorem exportCsv_example_header_not_quoted :
    ((exportCsv (obj [("type", str "flashcards"),
      ("data", arr [obj [("question", str "Q1"), ("answer", str "A,1")]])])).csvText.bind
        (fun text => ((splitLines text.data).map String.mk).head?))
      ≠ some "\"Question\",\"Answer\"" := by
  decide

/-- C2, amended: for the request with type `flashcards` and data
`[{question: "Q1", answer: "A,1"}]` the CSV text is the header line
`Question,Answer`, its column names not quoted, followed by the row line
`"Q1","A,1"`. -/
theorem exportCsv_example :
    (exportCsv (obj [("type", str "flashcards"),
      ("data", arr [obj [("question", str "Q1"), ("answer", str "A,1")]])])).csvText
      = some "Question,Answer\n\"Q1\",\"A,1\"\n" := by
  decide

theorem isStr_eq_false {v : JsVal} {s : String} (h : v ≠ str s) : v.isStr s = false := by
  cases v <;> simp [JsVal.isStr]
  rename_i t
  intro ht
  exact h (by rw [ht])

/-- C3. An export-csv request whose type is none of `notes`, `quiz`,
`flashcards`, and a request of any type whose data is missing (`undefined`
or `null`) or an empty list, is answered with status 400 and the error body
`No data to export`, and with no CSV text; the title of the request, if it
has one, is a value that converts to a string (a string, a number, a
boolean, a list or an object of such values). -/
theorem exportCsv_no_data (body type data title : JsVal) (name : String)
    (htype : body.prop "type" = .ok type) (hdata : body.prop "data" = .ok data)
    (htitle : body.prop "title" = .ok title)
    (hname : (title.orElse (str "lecture-data")).toStr = .ok name)
    (h : (type ≠ str "notes" ∧ type ≠ str "quiz" ∧ type ≠ str "flashcards")
      ∨ data = undefined ∨ data = null ∨ data = arr []) :
    exportCsv body = errorResponse 400 "No data to export" ∧
      (exportCsv body).status = 400 ∧ (exportCsv body).csvText = none := by
  have key : exportCsv body = errorResponse 400 "No data to export" := by
    simp only [exportCsv, exportCsvTry, htype, hdata, htitle, hname, bind, Except.bind]
    rcases h with ⟨h1, h2, h3⟩ | h | h | h
    · simp [isStr_eq_false h1, isStr_eq_false h2, isStr_eq_false h3, pure, Except.pure]
    · subst h
      simp [JsVal.truthy, pure, Except.pure]
    · subst h
      simp [JsVal.truthy, pure, Except.pure]
    · subst h
      have hq : ([] : List JsVal).mapM quizRow = .ok [] := rfl
      have hf : ([] : List JsVal).mapM flashcardRow = .ok [] := rfl
      simp only [JsVal.truthy, mapArray, hq, hf, notesRows, pure, Except.pure, Bool.and_true]
      split_ifs <;> first | rfl | (exfalso; simp_all)
  rw [key]
  exact ⟨rfl, rfl, rfl⟩

/-- Witness of C3: the type `pdf` with data and a title. -/
theorem exportCsv_no_data_witness :
    exportCsv (obj [("type", str "pdf"), ("data", arr [str "a note"]),
        ("title", str "Zellen – Teil 1")])
        = errorResponse 400 "No data to export" ∧
      (exportCsv (obj [("type", str "pdf"), ("data", arr [str "a note"]),
        ("title", str "Zellen – Teil 1")])).status = 400 ∧
      (exportCsv (obj [("type", str "pdf"), ("data", arr [str "a note"]),
        ("title", str "Zellen – Teil 1")])).csvText = none :=
  exportCsv_no_data (obj [("type", str "pdf"), ("data", arr [str "a note"]),
      ("title", str "Zellen – Teil 1")]) (str "pdf")
    (arr [str "a note"]) (str "Zellen – Teil 1") "Zellen – Teil 1" rfl rfl rfl rfl
    (Or.inl ⟨by simp, by simp, by simp⟩)

/-- C4, the code at an accepted upload whose transcription fails: the
request is answered with status 500 and the only operation on the upload
directory is the write of the file, so that no deletion is issued and the
file is still there. -/
theorem transcribeRoute_failure_keeps_file :
    (transcribeRoute (fun _ => none) 1700000000000 42 (some ⟨"audio", "lecture.mp3", 1024⟩)).1.status
        = 500 ∧
      (transcribeRoute (fun _ => none) 1700000000000 42 (some ⟨"audio", "lecture.mp3", 1024⟩)).2
        = [.write "uploads/audio-1700000000000-42.mp3"] ∧
      filesAfter []
        (transcribeRoute (fun _ => none) 1700000000000 42 (some ⟨"audio", "lecture.mp3", 1024⟩)).2
        = ["uploads/audio-1700000000000-42.mp3"] ∧
      (transcribeRoute (fun _ => some "hello") 1700000000000 42
        (some ⟨"audio", "lecture.mp3", 1024⟩)).2
        = [.write "uploads/audio-1700000000000-42.mp3",
            .unlink "uploads/audio-1700000000000-42.mp3"] := by
  decide

/-- C5, the code at an upload named `notes.txt`: the file filter rejects it
and nothing is written to the upload directory, but the error middleware
answers with status 500 and the body `Something went wrong!`, not with 400. -/
theorem transcribeRoute_txt (whisper : String → Option String) (now rand size : Nat) :
    fileFilter "notes.txt" = false ∧
      transcribeRoute whisper now rand (some ⟨"audio", "notes.txt", size⟩)
        = (errorResponse 500 "Something went wrong!", []) := by
  have h : fileFilter "notes.txt" = false := by decide
  refine ⟨h, ?_⟩
  simp [transcribeRoute, uploadSingle, h, errorMiddleware]

/-- C17. An upload that multer refuses with the code `LIMIT_FILE_SIZE` is
answered by the error middleware with status 400 and the message
`File too large. Maximum size is 100MB.`; this is the answer of the
transcribe route for every audio file of an allowed type whose size exceeds
the limit of 100 MB, and the file does not stay in the upload directory. -/
theorem transcribeRoute_file_too_large (whisper : String → Option String) (now rand : Nat)
    (file : FilePart) (hfield : file.fieldname = "audio")
    (hfilter : fileFilter file.originalname = true) (hsize : 100 * 1024 * 1024 < file.size) :
    errorMiddleware (.multer "LIMIT_FILE_SIZE")
        = errorResponse 400 "File too large. Maximum size is 100MB." ∧
      (transcribeRoute whisper now rand (some file)).1
        = errorResponse 400 "File too large. Maximum size is 100MB." ∧
      (transcribeRoute whisper now rand (some file)).1.status = 400 ∧
      filesAfter [] (transcribeRoute whisper now rand (some file)).2 = [] := by
  have hlimit : fileSizeLimit < file.size := hsize
  have hroute : transcribeRoute whisper now rand (some file)
      = (errorResponse 400 "File too large. Maximum size is 100MB.",
          [.write ("uploads/" ++ storageFilename now rand file),
            .unlink ("uploads/" ++ storageFilename now rand file)]) := by
    simp [transcribeRoute, uploadSingle, hfield, hfilter, hlimit, errorMiddleware]
  rw [hroute]
  refine ⟨rfl, rfl, rfl, ?_⟩
  simp [filesAfter]

/-- Witness of C17: an mp3 file of 200 MB. -/
theorem transcribeRoute_file_too_large_witness :
    errorMiddleware (.multer "LIMIT_FILE_SIZE")
        = errorResponse 400 "File too large. Maximum size is 100MB." ∧
      (transcribeRoute (fun _ => some "hello") 5 7 (some ⟨"audio", "lecture.mp3", 209715200⟩)).1
        = errorResponse 400 "File too large. Maximum size is 100MB." ∧
      (transcribeRoute (fun _ => some "hello") 5 7
        (some ⟨"audio", "lecture.mp3", 209715200⟩)).1.status = 400 ∧
      filesAfter [] (transcribeRoute (fun _ => some "hello") 5 7
        (some ⟨"audio", "lecture.mp3", 209715200⟩)).2 = [] :=
  transcribeRoute_file_too_large (fun _ => some "hello") 5 7 ⟨"audio", "lecture.mp3", 209715200⟩
    rfl (by decide) (by decide)

theorem flashcardCall_bounds (flashcards : List JsVal) (call : FlashcardCall) (i : Int)
    (h : 0 ≤ i ∧ i ≤ (flashcards.length : Int) - 1) :
    0 ≤ call.apply flashcards i ∧ call.apply flashcards i ≤ (flashcards.length : Int) - 1 := by
  cases call
  · simp only [FlashcardCall.apply, nextFlashcard]
    split_ifs <;> omega
  · simp only [FlashcardCall.apply, previousFlashcard]
    split_ifs <;> omega

theorem runFlashcardCalls_bounds (flashcards : List JsVal) (calls : List FlashcardCall) (i : Int)
    (h : 0 ≤ i ∧ i ≤ (flashcards.length : Int) - 1) :
    0 ≤ runFlashcardCalls flashcards calls i ∧
      runFlashcardCalls flashcards calls i ≤ (flashcards.length : Int) - 1 := by
  induction calls generalizing i with
  | nil => exact h
  | cons call rest ih =>
    simp only [runFlashcardCalls, List.foldl_cons]
    exact ih _ (flashcardCall_bounds flashcards call i h)

/-- C18. For a non-empty flashcard list, `displayFlashcards` sets the cursor
to 0, and after every call of a sequence of `nextFlashcard` and
`previousFlashcard` calls made from there the cursor is at least 0 and at
most the last index; at a cursor within these bounds `nextFlashcard` leaves
the last index unchanged and otherwise adds 1, and `previousFlashcard`
leaves 0 unchanged and otherwise subtracts 1. -/
theorem flashcard_cursor_in_bounds (flashcards : List JsVal) (start : Int)
    (calls : List FlashcardCall) (hne : flashcards ≠ []) :
    displayFlashcards flashcards start = 0 ∧
      (∀ k, 0 ≤ runFlashcardCalls flashcards (calls.take k) (displayFlashcards flashcards start) ∧
        runFlashcardCalls flashcards (calls.take k) (displayFlashcards flashcards start)
          ≤ (flashcards.length : Int) - 1) ∧
      (∀ i : Int, 0 ≤ i → i ≤ (flashcards.length : Int) - 1 →
        nextFlashcard flashcards i = (if i = (flashcards.length : Int) - 1 then i else i + 1) ∧
        previousFlashcard i = (if i = 0 then i else i - 1)) := by
  have hlen : 0 < flashcards.length := List.length_pos.mpr hne
  have h0 : displayFlashcards flashcards start = 0 := by
    simp [displayFlashcards, hlen]
  refine ⟨h0, ?_, ?_⟩
  · intro k
    rw [h0]
    exact runFlashcardCalls_bounds flashcards _ 0 ⟨le_refl 0, by omega⟩
  · intro i hi0 hi1
    constructor
    · simp only [nextFlashcard]
      split_ifs <;> omega
    · simp only [previousFlashcard]
      split_ifs <;> omega

/-- Witness of C18: two flashcards, the cursor pushed past both ends. -/
theorem flashcard_cursor_in_bounds_witness :
    displayFlashcards [str "card 1", str "card 2"] 7 = 0 ∧
      (∀ k, 0 ≤ runFlashcardCalls [str "card 1", str "card 2"]
          ([FlashcardCall.previous, .next, .next, .next, .previous].take k)
          (displayFlashcards [str "card 1", str "card 2"] 7) ∧
        runFlashcardCalls [str "card 1", str "card 2"]
          ([FlashcardCall.previous, .next, .next, .next, .previous].take k)
          (displayFlashcards [str "card 1", str "card 2"] 7)
          ≤ (([str "card 1", str "card 2"] : List JsVal).length : Int) - 1) ∧
      (∀ i : Int, 0 ≤ i → i ≤ (([str "card 1", str "card 2"] : List JsVal).length : Int) - 1 →
        nextFlashcard [str "card 1", str "card 2"] i
          = (if i = (([str "card 1", str "card 2"] : List JsVal).length : Int) - 1 then i
              else i + 1) ∧
        previousFlashcard i = (if i = 0 then i else i - 1)) :=
  flashcard_cursor_in_bounds [str "card 1", str "card 2"] 7
    [.previous, .next, .next, .next, .previous] (by simp)

theorem checkQuizAnswers_foldl (quiz : List QuizQuestion) (quizAnswers : QuizAnswers) (n : Nat) :
    quiz.foldl (fun correct question =>
        if getAnswer quizAnswers question.id = some question.correct then correct + 1
        else correct) n
      = n + (quiz.filter (fun question =>
          getAnswer quizAnswers question.id = some question.correct)).length := by
  induction quiz generalizing n with
  | nil => simp
  | cons q qs ih =>
    simp only [List.foldl_cons, ih, List.filter_cons]
    by_cases h : getAnswer quizAnswers q.id = some q.correct
    · simp [h]; omega
    · simp [h]

theorem getAnswer_filter_ne (quizAnswers : QuizAnswers) (id id' : Int) (h : id' ≠ id) :
    getAnswer (quizAnswers.filter (fun entry => entry.1 != id)) id' = getAnswer quizAnswers id' := by
  induction quizAnswers with
  | nil => rfl
  | cons e rest ih =>
    obtain ⟨k, v⟩ := e
    by_cases hk : k = id
    · subst hk
      have hne : ¬ k = id' := fun h' => h h'.symm
      simp [List.filter_cons, getAnswer, hne, ih]
    · by_cases hk' : k = id'
      · subst hk'
        simp [List.filter_cons, getAnswer, hk]
      · simp [List.filter_cons, getAnswer, hk, hk', ih]

/-- C19. For a quiz whose questions have pairwise distinct ids and for the
answers recorded by any sequence of `saveQuizAnswer` calls, the score of
`checkQuizAnswers` is the number of questions whose recorded answer is the
correct index of the question: it is at most the number of questions and no
question without a recorded answer is counted; `saveQuizAnswer` records the
answer of its question and leaves the recorded answer of every other
question of the quiz as it is; after `resetQuiz` the score is 0. -/
theorem quiz_score (quiz : List QuizQuestion) (saves : List (Int × Int))
    (hids : (quiz.map QuizQuestion.id).Nodup) :
    checkQuizAnswers quiz (answersAfter saves)
        = (quiz.filter (fun question =>
            getAnswer (answersAfter saves) question.id = some question.correct)).length ∧
      checkQuizAnswers quiz (answersAfter saves) ≤ quiz.length ∧
      (∀ question ∈ quiz, getAnswer (answersAfter saves) question.id = none →
        question ∉ quiz.filter (fun question =>
          getAnswer (answersAfter saves) question.id = some question.correct)) ∧
      (∀ question ∈ quiz, ∀ answerIndex : Int,
        getAnswer (saveQuizAnswer (answersAfter saves) question.id answerIndex) question.id
            = some answerIndex ∧
          ∀ other ∈ quiz, other ≠ question →
            getAnswer (saveQuizAnswer (answersAfter saves) question.id answerIndex) other.id
              = getAnswer (answersAfter saves) other.id) ∧
      checkQuizAnswers quiz resetQuiz = 0 := by
  have hscore : ∀ a : QuizAnswers, checkQuizAnswers quiz a
      = (quiz.filter (fun question => getAnswer a question.id = some question.correct)).length := by
    intro a
    rw [checkQuizAnswers, checkQuizAnswers_foldl, Nat.zero_add]
  refine ⟨hscore _, ?_, ?_, ?_, ?_⟩
  · rw [hscore]
    exact List.length_filter_le _ _
  · intro question _ hnone hmem
    rw [List.mem_filter] at hmem
    simp [hnone] at hmem
  · intro question hq answerIndex
    refine ⟨by simp [saveQuizAnswer, getAnswer], ?_⟩
    intro other ho hne
    have hid : other.id ≠ question.id := by
      intro h
      exact hne (List.inj_on_of_nodup_map hids ho hq h)
    have hid' : ¬ question.id = other.id := fun h => hid h.symm
    simp only [saveQuizAnswer, getAnswer, hid', ↓reduceIte]
    exact getAnswer_filter_ne _ _ _ hid
  · rw [hscore]
    simp [resetQuiz, getAnswer]

/-- Witness of C19: three questions, two answered, one of them right. -/
theorem quiz_score_witness :
    checkQuizAnswers [⟨1, 1⟩, ⟨2, 1⟩, ⟨3, 2⟩] (answersAfter [(1, 0), (2, 3), (1, 1)])
        = (([⟨1, 1⟩, ⟨2, 1⟩, ⟨3, 2⟩] : List QuizQuestion).filter (fun question =>
            getAnswer (answersAfter [(1, 0), (2, 3), (1, 1)]) question.id
              = some question.correct)).length ∧
      checkQuizAnswers [⟨1, 1⟩, ⟨2, 1⟩, ⟨3, 2⟩] (answersAfter [(1, 0), (2, 3), (1, 1)])
        ≤ ([⟨1, 1⟩, ⟨2, 1⟩, ⟨3, 2⟩] : List QuizQuestion).length ∧
      (∀ question ∈ ([⟨1, 1⟩, ⟨2, 1⟩, ⟨3, 2⟩] : List QuizQuestion),
        getAnswer (answersAfter [(1, 0), (2, 3), (1, 1)]) question.id = none →
        question ∉ ([⟨1, 1⟩, ⟨2, 1⟩, ⟨3, 2⟩] : List QuizQuestion).filter (fun question =>
          getAnswer (answersAfter [(1, 0), (2, 3), (1, 1)]) question.id
            = some question.correct)) ∧
      (∀ question ∈ ([⟨1, 1⟩, ⟨2, 1⟩, ⟨3, 2⟩] : List QuizQuestion), ∀ answerIndex : Int,
        getAnswer (saveQuizAnswer (answersAfter [(1, 0), (2, 3), (1, 1)]) question.id
            answerIndex) question.id = some answerIndex ∧
          ∀ other ∈ ([⟨1, 1⟩, ⟨2, 1⟩, ⟨3, 2⟩] : List QuizQuestion), other ≠ question →
            getAnswer (saveQuizAnswer (answersAfter [(1, 0), (2, 3), (1, 1)]) question.id
                answerIndex) other.id
              = getAnswer (answersAfter [(1, 0), (2, 3), (1, 1)]) other.id) ∧
      checkQuizAnswers [⟨1, 1⟩, ⟨2, 1⟩, ⟨3, 2⟩] resetQuiz = 0 :=
  quiz_score [⟨1, 1⟩, ⟨2, 1⟩, ⟨3, 2⟩] [(1, 0), (2, 3), (1, 1)] (by decide)

theorem takeWhile_append_of_all (p : Char → Bool) (l₁ l₂ : List Char)
    (h : ∀ x ∈ l₁, p x = true) : (l₁ ++ l₂).takeWhile p = l₁ ++ l₂.takeWhile p := by
  induction l₁ with
  | nil => rfl
  | cons x xs ih =>
    have hx := h x (List.mem_cons_self x xs)
    simp only [List.cons_append, List.takeWhile_cons, hx, ↓reduceIte]
    rw [ih (fun y hy => h y (List.mem_cons_of_mem x hy))]

theorem extname_of_dot (stem ext : List Char) (hext : ext ≠ []) (hdot : '.' ∉ ext)
    (hslash : '/' ∉ ext) (hstem : stem ≠ []) (hlast : stem.getLast? ≠ some '/') :
    extname (stem ++ '.' :: ext) = '.' :: ext := by
  have hrev : (stem ++ '.' :: ext).reverse = ext.reverse ++ '.' :: stem.reverse := by simp
  -- no trailing slash to drop
  have hdrop : ((stem ++ '.' :: ext).reverse.dropWhile (fun c => c = '/'))
      = (stem ++ '.' :: ext).reverse := by
    rw [hrev]
    cases he : ext.reverse with
    | nil => simp at he; exact absurd he hext
    | cons e es =>
      have hmem : e ∈ ext := by
        have : e ∈ ext.reverse := by rw [he]; exact List.mem_cons_self e es
        simpa using this
      have hne : ¬ e = '/' := fun h => hslash (h ▸ hmem)
      simp [List.dropWhile_cons, hne]
  -- the reversed stem starts with a character that is no slash
  obtain ⟨s, ss, hs⟩ : ∃ s ss, stem.reverse = s :: ss := by
    cases h : stem.reverse with
    | nil => simp at h; exact absurd h hstem
    | cons s ss => exact ⟨s, ss, rfl⟩
  have hsne : ¬ s = '/' := by
    intro h
    apply hlast
    have : stem = (s :: ss).reverse := by rw [← hs]; simp
    rw [this, h]
    simp
  have htake : ((stem ++ '.' :: ext).reverse.takeWhile (fun c => c ≠ '/'))
      = ext.reverse ++ '.' :: s :: ss.takeWhile (fun c => c ≠ '/') := by
    rw [hrev, takeWhile_append_of_all _ _ _ (fun x hx => by
      have : x ∈ ext := by simpa using hx
      simpa using fun h : x = '/' => hslash (h ▸ this)), hs]
    simp [List.takeWhile_cons, hsne]
  have htake2 : ((ext.reverse ++ '.' :: s :: ss.takeWhile (fun c => c ≠ '/')).takeWhile
      (fun c => c ≠ '.')) = ext.reverse := by
    rw [takeWhile_append_of_all _ _ _ (fun x hx => by
      have : x ∈ ext := by simpa using hx
      simpa using fun h : x = '.' => hdot (h ▸ this))]
    simp [List.takeWhile_cons]
  have hcontains : (ext.reverse ++ '.' :: s :: ss.takeWhile (fun c => c ≠ '/')).reverse.contains '.'
      = true := by
    simp
  have hlen : ¬ (ext.reverse ++ '.' :: s :: ss.takeWhile (fun c => c ≠ '/')).reverse.length
      = ('.' :: ext).length := by
    simp; omega
  have hne2 : ¬ (ext.reverse ++ '.' :: s :: ss.takeWhile (fun c => c ≠ '/')).reverse
      = ['.', '.'] := by
    intro h
    have := congrArg List.length h
    have hpos : 0 < ext.length := List.length_pos.mpr hext
    simp at this
    omega
  unfold extname
  simp only [hdrop, List.reverse_reverse, htake, htake2]
  rw [hcontains, if_neg (by simp), if_neg hlen, if_neg hne2]

theorem extname_of_no_dot (path : List Char) (h : '.' ∉ path) : extname path = [] := by
  have hbase : '.' ∉ (((path.reverse.dropWhile (fun c => c = '/')).reverse).reverse.takeWhile
      (fun c => c ≠ '/')).reverse := by
    intro hmem
    apply h
    rw [List.mem_reverse] at hmem
    have h1 := (List.takeWhile_sublist _).subset hmem
    rw [List.reverse_reverse] at h1
    have h2 := (List.dropWhile_sublist _).subset h1
    exact List.mem_reverse.mp h2
  unfold extname
  simp only
  rw [if_pos]
  simpa using hbase

/-- C14. The file filter accepts a name exactly when its extension, put in
lower case, is one of `.mp3`, `.wav`, `.m4a`, `.ogg`, `.webm`, `.mp4`: for a
name that ends in a dot and a non-empty extension without dot or slash,
after a stem that is not empty and does not end in a slash, it accepts
exactly when the extension in lower case is one of the six; a name without a
dot is rejected; `LECTURE.MP3` is accepted and `lecture` is rejected. -/
theorem fileFilter_iff (name : String) :
    (fileFilter name = true ↔
      String.mk (toLowerCase (extname name.data))
        ∈ [".mp3", ".wav", ".m4a", ".ogg", ".webm", ".mp4"]) ∧
    (∀ stem ext, name.data = stem ++ '.' :: ext → ext ≠ [] → '.' ∉ ext → '/' ∉ ext →
      stem ≠ [] → stem.getLast? ≠ some '/' →
      (fileFilter name = true ↔
        String.mk (ext.map Char.toLower) ∈ ["mp3", "wav", "m4a", "ogg", "webm", "mp4"])) ∧
    ('.' ∉ name.data → fileFilter name = false) ∧
    fileFilter "LECTURE.MP3" = true ∧ fileFilter "lecture" = false := by
  refine ⟨?_, ?_, ?_, by decide, by decide⟩
  · simp [fileFilter, allowedTypes]
  · intro stem ext hname hext hdot hslash hstem hlast
    have hx := extname_of_dot stem ext hext hdot hslash hstem hlast
    rw [← hname] at hx
    have hlow : Char.toLower '.' = '.' := by decide
    simp [fileFilter, allowedTypes, hx, toLowerCase, hlow, String.ext_iff]
  · intro h
    simp [fileFilter, allowedTypes, extname_of_no_dot name.data h, toLowerCase, String.ext_iff]

/-- Witness of C14: the name `Lecture.Mp3`. -/
theorem fileFilter_iff_witness :
    fileFilter "Lecture.Mp3" = true ∧
      (fileFilter "Lecture.Mp3" = true ↔
        String.mk ("Mp3".data.map Char.toLower) ∈ ["mp3", "wav", "m4a", "ogg", "webm", "mp4"]) :=
  ⟨by decide,
    (fileFilter_iff "Lecture.Mp3").2.1 "Lecture".data "Mp3".data rfl (by decide) (by decide)
      (by decide) (by decide) (by decide)⟩

theorem dropWhile_head_not (p : Char → Bool) (l : List Char) (c : Char) (cs : List Char)
    (h : l.dropWhile p = c :: cs) : p c = false := by
  induction l with
  | nil => simp at h
  | cons x xs ih =>
    rw [List.dropWhile_cons] at h
    split at h
    · exact ih h
    · rename_i hx
      simp only [List.cons.injEq] at h
      rw [← h.1]
      simpa using hx

theorem trim_eq_nil_iff (s : List Char) : trim s = [] ↔ isBlank s = true := by
  unfold trim isBlank
  rw [List.reverse_eq_nil_iff, List.dropWhile_eq_nil_iff, List.all_eq_true]
  constructor
  · intro h
    cases hd : s.dropWhile isSpace with
    | nil => exact List.dropWhile_eq_nil_iff.mp hd
    | cons c cs =>
      have h1 := dropWhile_head_not isSpace s c cs hd
      have h2 := h c (by rw [hd]; simp)
      rw [h1] at h2
      cases h2
  · intro h
    rw [List.dropWhile_eq_nil_iff.mpr h]
    simp

theorem mem_notesArray (text n : String) :
    n ∈ notesArray text ↔
      ∃ line ∈ splitLines text.data, isBlank line = false ∧ n = String.mk (stripBullet line) := by
  simp only [notesArray, List.mem_map, List.mem_filter, bne_iff_ne, ne_eq, trim_eq_nil_iff,
    Bool.not_eq_true]
  constructor
  · rintro ⟨l, ⟨line, ⟨hm, hb⟩, rfl⟩, rfl⟩
    exact ⟨line, hm, hb, rfl⟩
  · rintro ⟨line, hm, hb, rfl⟩
    exact ⟨_, ⟨line, ⟨hm, hb⟩, rfl⟩, rfl⟩

theorem dropWhile_dropWhile (p : Char → Bool) (l : List Char) :
    (l.dropWhile p).dropWhile p = l.dropWhile p := by
  cases h : l.dropWhile p with
  | nil => rfl
  | cons c cs =>
    have hc := dropWhile_head_not p l c cs h
    simp [List.dropWhile_cons, hc]

theorem generateQuiz_ok (api : String → String → Nat → Option String)
    (jsonParse : String → Option JsVal) (body : JsVal) (transcript prompt text : String)
    (hbody : body.prop "transcription" = .ok (str transcript)) (hne : transcript ≠ "")
    (hprompt : quizPrompt (str transcript) = .ok prompt)
    (hapi : api prompt "gpt-3.5-turbo" 1500 = some text) :
    generateQuiz api jsonParse body
      = jsonResponse (obj [("quiz", (jsonParse text).getD basicQuiz)]) := by
  cases hp : jsonParse text <;>
    simp [generateQuiz, generateQuizTry, hbody, JsVal.truthy, hne, hprompt, bind, Except.bind,
      callOpenAI, hapi, hp, pure, Except.pure]

/-- C6. When the request carries a transcript (a non-empty string, so that
the completion is asked for) and the completion text does not parse as JSON,
generate-quiz answers with status 200 and the quiz is the one placeholder
question, which has a question text, exactly four options and a correct
index below four. -/
theorem generateQuiz_fallback (api : String → String → Nat → Option String)
    (jsonParse : String → Option JsVal) (body : JsVal) (transcript prompt text : String)
    (hbody : body.prop "transcription" = .ok (str transcript)) (hne : transcript ≠ "")
    (hprompt : quizPrompt (str transcript) = .ok prompt)
    (hapi : api prompt "gpt-3.5-turbo" 1500 = some text)
    (hparse : jsonParse text = none) :
    generateQuiz api jsonParse body = jsonResponse (obj [("quiz", basicQuiz)]) ∧
      (generateQuiz api jsonParse body).status = 200 ∧
      ∃ q, basicQuiz = arr [q] ∧ WellFormedQuestion q := by
  have key := generateQuiz_ok api jsonParse body transcript prompt text hbody hne hprompt hapi
  rw [hparse] at key
  refine ⟨key, by rw [key]; rfl, _, rfl, ?_⟩
  exact ⟨"What was the main topic of this lecture?", ["Topic A", "Topic B", "Topic C", "Topic D"],
    0, rfl, rfl, rfl, rfl, by decide⟩

/-- Witness of C6: a completion that is plain prose. -/
theorem generateQuiz_fallback_witness :
    generateQuiz (fun _ _ _ => some "Sorry, here are your questions:")
        (fun _ => none) (obj [("transcription", str "Cells divide.")])
        = jsonResponse (obj [("quiz", basicQuiz)]) ∧
      (generateQuiz (fun _ _ _ => some "Sorry, here are your questions:")
        (fun _ => none) (obj [("transcription", str "Cells divide.")])).status = 200 ∧
      ∃ q, basicQuiz = arr [q] ∧ WellFormedQuestion q :=
  generateQuiz_fallback (fun _ _ _ => some "Sorry, here are your questions:") (fun _ => none)
    (obj [("transcription", str "Cells divide.")]) "Cells divide." _
    "Sorry, here are your questions:" rfl (by decide) rfl rfl rfl

/-- C11, as stated, fails: for a completion text that parses to a quiz of
one question with a single option and the correct index 5, generate-quiz
answers with success and returns that question, which has neither four
options nor a correct index below the number of options. -/
theorem generateQuiz_unvalidated :
    generateQuiz
        (fun _ _ _ => some "[\x7b\"question\":\"Q\",\"options\":[\"only\"],\"correct\":5,\"id\":1\x7d]")
        parseShortQuiz (obj [("transcription", str "Cells divide.")])
      = jsonResponse (obj [("quiz", arr [obj [("question", str "Q"),
          ("options", arr [str "only"]), ("correct", num 5), ("id", num 1)]])]) ∧
      ¬ QuizQuestionShape (obj [("question", str "Q"), ("options", arr [str "only"]),
          ("correct", num 5), ("id", num 1)]) := by
  refine ⟨rfl, ?_⟩
  rintro ⟨options, correct, ho, _, hlen, _, _⟩
  have h : arr [str "only"] = arr options := by
    have h' : (obj [("question", str "Q"), ("options", arr [str "only"]), ("correct", num 5),
      ("id", num 1)]).prop "options" = .ok (arr [str "only"]) := rfl
    rw [h'] at ho
    exact Except.ok.inj ho
  injection h with h
  subst h
  simp at hlen

/-- C11, amended: generate-quiz does not check the shape of what the
completion holds.  For a request that carries a transcript (a non-empty
string) and whose completion arrives: when the completion text parses as
JSON, the answer is a success whose quiz is the parsed value, unchanged,
whatever its shape; when the text does not parse, the quiz is the one
placeholder question, which has exactly four options and a correct index
into them. -/
theorem generateQuiz_parsed (api : String → String → Nat → Option String)
    (jsonParse : String → Option JsVal) (body : JsVal) (transcript prompt text : String)
    (hbody : body.prop "transcription" = .ok (str transcript)) (hne : transcript ≠ "")
    (hprompt : quizPrompt (str transcript) = .ok prompt)
    (hapi : api prompt "gpt-3.5-turbo" 1500 = some text) :
    (∀ v, jsonParse text = some v →
        generateQuiz api jsonParse body = jsonResponse (obj [("quiz", v)])) ∧
      (jsonParse text = none →
        generateQuiz api jsonParse body = jsonResponse (obj [("quiz", basicQuiz)]) ∧
          ∃ q, basicQuiz = arr [q] ∧ QuizQuestionShape q) := by
  have key := generateQuiz_ok api jsonParse body transcript prompt text hbody hne hprompt hapi
  refine ⟨?_, ?_⟩
  · intro v hv
    rw [hv] at key
    exact key
  · intro hnone
    rw [hnone] at key
    exact ⟨key, _, rfl,
      [str "Topic A", str "Topic B", str "Topic C", str "Topic D"], 0, rfl, rfl, rfl,
      by decide, by decide⟩

/-- Witness of C11 (amended): a completion that parses to a quiz of one
question; the answer holds that question as it was parsed. -/
theorem generateQuiz_parsed_witness :
    ((∀ v, parseSampleQuiz
          "[\x7b\"question\":\"Q\",\"options\":[\"w\",\"x\",\"y\",\"z\"],\"correct\":2,\"id\":1\x7d]"
          = some v →
        generateQuiz
          (fun _ _ _ => some
            "[\x7b\"question\":\"Q\",\"options\":[\"w\",\"x\",\"y\",\"z\"],\"correct\":2,\"id\":1\x7d]")
          parseSampleQuiz (obj [("transcription", str "Cells divide.")])
          = jsonResponse (obj [("quiz", v)])) ∧
      (parseSampleQuiz
          "[\x7b\"question\":\"Q\",\"options\":[\"w\",\"x\",\"y\",\"z\"],\"correct\":2,\"id\":1\x7d]"
          = none →
        generateQuiz
          (fun _ _ _ => some
            "[\x7b\"question\":\"Q\",\"options\":[\"w\",\"x\",\"y\",\"z\"],\"correct\":2,\"id\":1\x7d]")
          parseSampleQuiz (obj [("transcription", str "Cells divide.")])
          = jsonResponse (obj [("quiz", basicQuiz)]) ∧
          ∃ q, basicQuiz = arr [q] ∧ QuizQuestionShape q)) ∧
    generateQuiz
        (fun _ _ _ => some
          "[\x7b\"question\":\"Q\",\"options\":[\"w\",\"x\",\"y\",\"z\"],\"correct\":2,\"id\":1\x7d]")
        parseSampleQuiz (obj [("transcription", str "Cells divide.")])
      = jsonResponse (obj [("quiz", arr [obj [("question", str "Q"),
          ("options", arr [str "w", str "x", str "y", str "z"]), ("correct", num 2),
          ("id", num 1)]])]) :=
  ⟨generateQuiz_parsed
      (fun _ _ _ => some
        "[\x7b\"question\":\"Q\",\"options\":[\"w\",\"x\",\"y\",\"z\"],\"correct\":2,\"id\":1\x7d]")
      parseSampleQuiz (obj [("transcription", str "Cells divide.")]) "Cells divide." _
      "[\x7b\"question\":\"Q\",\"options\":[\"w\",\"x\",\"y\",\"z\"],\"correct\":2,\"id\":1\x7d]"
      rfl (by decide) rfl rfl,
    rfl⟩

/-- C15. When the request carries a transcript (a non-empty string, so that
the completion is asked for) and the completion text does not parse as JSON,
generate-flashcards answers with status 200 and the flashcards are the one
fixed placeholder card, which has the integer id 1, a non-empty question and
a non-empty answer. -/
theorem generateFlashcards_fallback (api : String → String → Nat → Option String)
    (jsonParse : String → Option JsVal) (body : JsVal) (transcript prompt text : String)
    (hbody : body.prop "transcription" = .ok (str transcript)) (hne : transcript ≠ "")
    (hprompt : flashcardsPrompt (str transcript) = .ok prompt)
    (hapi : api prompt "gpt-3.5-turbo" 1200 = some text)
    (hparse : jsonParse text = none) :
    generateFlashcards api jsonParse body = jsonResponse (obj [("flashcards", basicFlashcards)]) ∧
      (generateFlashcards api jsonParse body).status = 200 ∧
      ∃ card question answer, basicFlashcards = arr [card] ∧
        card.prop "id" = .ok (num 1) ∧
        card.prop "question" = .ok (str question) ∧ question ≠ "" ∧
        card.prop "answer" = .ok (str answer) ∧ answer ≠ "" := by
  have key : generateFlashcards api jsonParse body
      = jsonResponse (obj [("flashcards", basicFlashcards)]) := by
    simp [generateFlashcards, generateFlashcardsTry, hbody, JsVal.truthy, hne, hprompt, bind,
      Except.bind, callOpenAI, hapi, hparse, pure, Except.pure]
  refine ⟨key, by rw [key]; rfl, _, "Key concept from this lecture",
    "Answer based on lecture content", rfl, rfl, rfl, by decide, rfl, by decide⟩

/-- Witness of C15: a completion that is plain prose. -/
theorem generateFlashcards_fallback_witness :
    generateFlashcards (fun _ _ _ => some "Here are six cards.") (fun _ => none)
        (obj [("transcription", str "Cells divide.")])
        = jsonResponse (obj [("flashcards", basicFlashcards)]) ∧
      (generateFlashcards (fun _ _ _ => some "Here are six cards.") (fun _ => none)
        (obj [("transcription", str "Cells divide.")])).status = 200 ∧
      ∃ card question answer, basicFlashcards = arr [card] ∧
        card.prop "id" = .ok (num 1) ∧
        card.prop "question" = .ok (str question) ∧ question ≠ "" ∧
        card.prop "answer" = .ok (str answer) ∧ answer ≠ "" :=
  generateFlashcards_fallback (fun _ _ _ => some "Here are six cards.") (fun _ => none)
    (obj [("transcription", str "Cells divide.")]) "Cells divide." _ "Here are six cards."
    rfl (by decide) rfl rfl rfl

theorem isSpace_iff (c : Char) : isSpace c = true ↔ c ∈ whiteSpaceChars := by
  constructor
  · intro h
    have hc : c = Char.ofNat c.toNat := (Char.ofNat_toNat c).symm
    have hall : ∀ n ∈ [0x9, 0xA, 0xB, 0xC, 0xD, 0x20, 0xA0, 0x1680, 0x2028, 0x2029, 0x202F,
        0x205F, 0x3000, 0xFEFF, 0x2000, 0x2001, 0x2002, 0x2003, 0x2004, 0x2005, 0x2006, 0x2007,
        0x2008, 0x2009, 0x200A], Char.ofNat n ∈ whiteSpaceChars := by decide
    rw [hc]
    apply hall
    simp only [isSpace, Bool.or_eq_true, decide_eq_true_eq, Bool.and_eq_true] at h
    generalize c.toNat = n at h
    rcases h with h | ⟨h1, h2⟩
    · simp only [List.mem_cons, List.mem_singleton, List.not_mem_nil, or_false] at h ⊢
      omega
    · simp only [List.mem_cons, List.mem_singleton, List.not_mem_nil, or_false]
      omega
  · intro h
    have hall : ∀ d ∈ whiteSpaceChars, isSpace d = true := by decide
    exact hall c h

theorem isBullet_iff (c : Char) : isBullet c = true ↔ c ∈ bulletMarkers := by
  simp [isBullet, bulletMarkers, or_assoc]

theorem splitLines_eq_splitOn (l : List Char) : splitLines l = l.splitOn '\n' := by
  induction l with
  | nil => rfl
  | cons c cs ih =>
    rw [List.splitOn, List.splitOnP_cons]
    rw [List.splitOn] at ih
    by_cases hc : c = '\n'
    · simp [splitLines, hc, ih]
    · simp only [splitLines, hc, ↓reduceIte, ih, beq_iff_eq, Bool.false_eq_true]
      cases h : List.splitOnP (fun x => x == '\n') cs with
      | nil => exact absurd h (List.splitOnP_ne_nil _ _)
      | cons line lines => rfl

theorem isBlank_iff (line : List Char) : isBlank line = true ↔ BlankLine line := by
  simp only [isBlank, List.all_eq_true, BlankLine, isSpace_iff]

theorem blankLine_iff (line : List Char) : blankLine line = true ↔ BlankLine line := by
  simp [blankLine, BlankLine]

theorem noteOf_stripBullet (line : List Char) : NoteOf line (String.mk (stripBullet line)) := by
  cases line with
  | nil =>
    refine ⟨?_, ?_⟩
    · intro c rest h
      cases h
    · intro _
      rfl
  | cons c rest =>
    refine ⟨?_, ?_⟩
    · intro c' rest' h hc
      injection h with h1 h2
      subst h1 h2
      have hb : isBullet c = true := (isBullet_iff c).mpr hc
      simp only [stripBullet, hb, ↓reduceIte]
      refine ⟨rest.takeWhile isSpace, ?_, (List.takeWhile_append_dropWhile isSpace rest).symm, ?_⟩
      · intro w hw
        exact (isSpace_iff w).mp (List.mem_takeWhile_imp hw)
      · intro d tail hd hmem
        have := dropWhile_head_not isSpace rest d tail hd
        rw [(isSpace_iff d).mpr hmem] at this
        cases this
    · intro h
      have hb : ¬ isBullet c = true := fun hb => h c rest rfl ((isBullet_iff c).mp hb)
      simp [stripBullet, hb]

theorem mem_notesArray_spec (text n : String) :
    n ∈ notesArray text ↔
      ∃ line ∈ textLines text, ¬ BlankLine line ∧ n = String.mk (stripBullet line) := by
  rw [mem_notesArray, textLines, ← splitLines_eq_splitOn]
  constructor
  · rintro ⟨line, hm, hb, rfl⟩
    refine ⟨line, hm, ?_, rfl⟩
    intro h
    rw [(isBlank_iff line).mpr h] at hb
    cases hb
  · rintro ⟨line, hm, hb, rfl⟩
    refine ⟨line, hm, ?_, rfl⟩
    cases h : isBlank line with
    | false => rfl
    | true => exact absurd ((isBlank_iff line).mp h) hb

theorem generateNotes_ok (api : String → String → Nat → Option String)
    (body : JsVal) (transcript prompt text : String)
    (hbody : body.prop "transcription" = .ok (str transcript)) (hne : transcript ≠ "")
    (hprompt : notesPrompt (str transcript) = .ok prompt)
    (hapi : api prompt "gpt-3.5-turbo" 1000 = some text) :
    generateNotes api body = jsonResponse (obj [("notes", arr ((notesArray text).map str))]) := by
  simp [generateNotes, generateNotesTry, hbody, JsVal.truthy, hne, hprompt, bind, Except.bind,
    callOpenAI, hapi, pure, Except.pure]

/-- C9, as stated, fails: for the completion text `Topics:`, `-`, `- cells`
(three lines) the notes array returned by generate-notes holds the empty
string. -/
theorem generateNotes_empty_note :
    generateNotes (fun _ _ _ => some "Topics:\n-\n- cells")
        (obj [("transcription", str "Cells divide.")])
        = jsonResponse (obj [("notes", arr [str "Topics:", str "", str "cells"])]) ∧
      "" ∈ notesArray "Topics:\n-\n- cells" ∧ isBlank "".data = true := by
  refine ⟨rfl, by decide, by decide⟩

/-- C9, amended: blank lines are discarded before the markers are stripped.
For every request that carries a transcript (a non-empty string) and every
completion text, each string of the notes array returned by generate-notes
is the note of a line of the text that is not blank; a string of the array
is blank only when it is empty, and then its line is a bullet marker
followed by white space only. -/
theorem generateNotes_blank_lines (api : String → String → Nat → Option String)
    (body : JsVal) (transcript prompt text : String)
    (hbody : body.prop "transcription" = .ok (str transcript)) (hne : transcript ≠ "")
    (hprompt : notesPrompt (str transcript) = .ok prompt)
    (hapi : api prompt "gpt-3.5-turbo" 1000 = some text) :
    ∃ notes : List String,
      generateNotes api body = jsonResponse (obj [("notes", arr (notes.map str))]) ∧
      ∀ n ∈ notes, ∃ line ∈ textLines text,
        ¬ BlankLine line ∧ NoteOf line n ∧
        (BlankLine n.data →
          n = "" ∧ ∃ c ws, line = c :: ws ∧ c ∈ bulletMarkers ∧ BlankLine ws) := by
  refine ⟨notesArray text,
    generateNotes_ok api body transcript prompt text hbody hne hprompt hapi, ?_⟩
  intro n hn
  obtain ⟨line, hm, hb, rfl⟩ := (mem_notesArray_spec text n).mp hn
  refine ⟨line, hm, hb, noteOf_stripBullet line, ?_⟩
  intro hblank
  cases line with
  | nil => exact absurd (fun c hc => by cases hc) hb
  | cons c cs =>
    simp only [stripBullet] at hblank ⊢
    by_cases hc : isBullet c = true
    · simp only [hc, ↓reduceIte] at hblank ⊢
      cases hd : cs.dropWhile isSpace with
      | nil =>
        refine ⟨rfl, c, cs, rfl, (isBullet_iff c).mp hc, ?_⟩
        intro w hw
        exact (isSpace_iff w).mp (List.dropWhile_eq_nil_iff.mp hd w hw)
      | cons d ds =>
        have h1 := dropWhile_head_not isSpace cs d ds hd
        rw [hd] at hblank
        have h2 := hblank d (List.mem_cons_self d ds)
        rw [(isSpace_iff d).mpr h2] at h1
        cases h1
    · simp only [hc, Bool.false_eq_true, ↓reduceIte] at hblank
      exact absurd hblank hb

/-- Witness of C9 (amended): a completion with a blank line and a lone
marker; the notes are `a` and the empty string. -/
theorem generateNotes_blank_lines_witness :
    (∃ notes : List String,
      generateNotes (fun _ _ _ => some "- a\n\n-") (obj [("transcription", str "Cells divide.")])
        = jsonResponse (obj [("notes", arr (notes.map str))]) ∧
      ∀ n ∈ notes, ∃ line ∈ textLines "- a\n\n-",
        ¬ BlankLine line ∧ NoteOf line n ∧
        (BlankLine n.data →
          n = "" ∧ ∃ c ws, line = c :: ws ∧ c ∈ bulletMarkers ∧ BlankLine ws)) ∧
    generateNotes (fun _ _ _ => some "- a\n\n-") (obj [("transcription", str "Cells divide.")])
      = jsonResponse (obj [("notes", arr [str "a", str ""])]) :=
  ⟨generateNotes_blank_lines (fun _ _ _ => some "- a\n\n-")
    (obj [("transcription", str "Cells divide.")]) "Cells divide." _ "- a\n\n-"
    rfl (by decide) rfl rfl, rfl⟩

/-- C10, as stated, fails: for the completion text `  - x`, `-- y` (two
lines) both strings of the notes array returned by generate-notes begin,
leading white space ignored, with a bullet marker. -/
theorem generateNotes_marker_kept :
    generateNotes (fun _ _ _ => some "  - x\n-- y")
        (obj [("transcription", str "Cells divide.")])
        = jsonResponse (obj [("notes", arr [str "  - x", str "- y"])]) ∧
      "  - x" ∈ notesArray "  - x\n-- y" ∧ beginsWithBullet "  - x".data = true ∧
      "- y" ∈ notesArray "  - x\n-- y" ∧ beginsWithBullet "- y".data = true := by
  refine ⟨rfl, by decide, by decide, by decide, by decide⟩

/-- C10, amended: one marker is stripped, and only at the first character
of a line.  For every request that carries a transcript (a non-empty string)
and every completion text, each string of the notes array returned by
generate-notes is the note of a non-blank line of the text: the line without
the bullet marker that is its first character and without the white space
right after that marker.  Such a string begins, leading white space ignored,
with a bullet marker only when its line begins with white space, and is then
kept unchanged, or when its line carries a second marker after the first. -/
theorem generateNotes_one_marker_stripped (api : String → String → Nat → Option String)
    (body : JsVal) (transcript prompt text : String)
    (hbody : body.prop "transcription" = .ok (str transcript)) (hne : transcript ≠ "")
    (hprompt : notesPrompt (str transcript) = .ok prompt)
    (hapi : api prompt "gpt-3.5-turbo" 1000 = some text) :
    ∃ notes : List String,
      generateNotes api body = jsonResponse (obj [("notes", arr (notes.map str))]) ∧
      ∀ n ∈ notes, ∃ line ∈ textLines text,
        ¬ BlankLine line ∧ NoteOf line n ∧
        (BeginsWithMarker n.data →
          (∃ c rest, line = c :: rest ∧ c ∈ whiteSpaceChars ∧ n.data = line) ∨
          (∃ c rest, line = c :: rest ∧ c ∈ bulletMarkers ∧ BeginsWithMarker rest)) := by
  refine ⟨notesArray text,
    generateNotes_ok api body transcript prompt text hbody hne hprompt hapi, ?_⟩
  intro n hn
  obtain ⟨line, hm, hb, rfl⟩ := (mem_notesArray_spec text n).mp hn
  refine ⟨line, hm, hb, noteOf_stripBullet line, ?_⟩
  intro hbegins
  cases line with
  | nil => exact absurd (fun c hc => by cases hc) hb
  | cons c cs =>
    simp only [stripBullet] at hbegins
    by_cases hc : isBullet c = true
    · simp only [hc, ↓reduceIte] at hbegins
      obtain ⟨ws, d, rest, hsplit, hws, hd⟩ := hbegins
      refine Or.inr ⟨c, cs, rfl, (isBullet_iff c).mp hc, cs.takeWhile isSpace ++ ws, d, rest, ?_,
        ?_, hd⟩
      · rw [List.append_assoc, ← hsplit, List.takeWhile_append_dropWhile]
      · intro w hw
        rcases List.mem_append.mp hw with h | h
        · exact (isSpace_iff w).mp (List.mem_takeWhile_imp h)
        · exact hws w h
    · simp only [hc, Bool.false_eq_true, ↓reduceIte] at hbegins
      obtain ⟨ws, d, rest, hsplit, hws, hd⟩ := hbegins
      cases ws with
      | nil =>
        simp only [List.nil_append, List.cons.injEq] at hsplit
        rw [hsplit.1] at hc
        exact absurd ((isBullet_iff d).mpr hd) hc
      | cons w ws' =>
        simp only [List.cons_append, List.cons.injEq] at hsplit
        refine Or.inl ⟨c, cs, rfl, ?_, by simp [stripBullet, hc]⟩
        rw [hsplit.1]
        exact hws w (List.mem_cons_self w ws')

/-- Witness of C10 (amended): a completion with a marker, an indented
marker and a doubled marker; the notes are `a`, the indented line unchanged
and `- y`. -/
theorem generateNotes_one_marker_stripped_witness :
    (∃ notes : List String,
      generateNotes (fun _ _ _ => some "- a\n  - x\n-- y")
        (obj [("transcription", str "Cells divide.")])
        = jsonResponse (obj [("notes", arr (notes.map str))]) ∧
      ∀ n ∈ notes, ∃ line ∈ textLines "- a\n  - x\n-- y",
        ¬ BlankLine line ∧ NoteOf line n ∧
        (BeginsWithMarker n.data →
          (∃ c rest, line = c :: rest ∧ c ∈ whiteSpaceChars ∧ n.data = line) ∨
          (∃ c rest, line = c :: rest ∧ c ∈ bulletMarkers ∧ BeginsWithMarker rest))) ∧
    generateNotes (fun _ _ _ => some "- a\n  - x\n-- y")
        (obj [("transcription", str "Cells divide.")])
      = jsonResponse (obj [("notes", arr [str "a", str "  - x", str "- y"])]) :=
  ⟨generateNotes_one_marker_stripped (fun _ _ _ => some "- a\n  - x\n-- y")
    (obj [("transcription", str "Cells divide.")]) "Cells divide." _ "- a\n  - x\n-- y"
    rfl (by decide) rfl rfl, rfl⟩

/-- C13. For every request that carries a transcript (a non-empty string)
and every completion text, the notes array returned by generate-notes has
one entry per non-blank line of the text, in the order of the lines; the
entry of a line that does not start with a bullet marker is the line
unchanged, and the entry of a line that starts with a bullet marker is the
line without that marker and without the white space directly after it. -/
theorem generateNotes_entries (api : String → String → Nat → Option String)
    (body : JsVal) (transcript prompt text : String)
    (hbody : body.prop "transcription" = .ok (str transcript)) (hne : transcript ≠ "")
    (hprompt : notesPrompt (str transcript) = .ok prompt)
    (hapi : api prompt "gpt-3.5-turbo" 1000 = some text) :
    ∃ notes : List String,
      generateNotes api body = jsonResponse (obj [("notes", arr (notes.map str))]) ∧
      notes.length = ((textLines text).filter (fun line => !blankLine line)).length ∧
      List.Forall₂ NoteOf ((textLines text).filter (fun line => !blankLine line)) notes := by
  have hfilter : (fun line : List Char => trim line != []) = (fun line => !blankLine line) := by
    funext line
    cases hb : blankLine line with
    | true =>
      have : trim line = [] :=
        (trim_eq_nil_iff line).mpr ((isBlank_iff line).mpr ((blankLine_iff line).mp hb))
      simp [this]
    | false =>
      have : trim line ≠ [] := fun h => by
        have := (blankLine_iff line).mpr ((isBlank_iff line).mp ((trim_eq_nil_iff line).mp h))
        rw [this] at hb
        cases hb
      simp [this]
  have hall : List.Forall₂ NoteOf ((textLines text).filter (fun line => !blankLine line))
      (notesArray text) := by
    simp only [notesArray, textLines, hfilter, List.map_map, splitLines_eq_splitOn]
    rw [List.forall₂_map_right_iff, List.forall₂_same]
    intro line _
    exact noteOf_stripBullet line
  exact ⟨notesArray text,
    generateNotes_ok api body transcript prompt text hbody hne hprompt hapi,
    hall.length_eq.symm, hall⟩

/-- Witness of C13: a completion with plain, bulleted and blank lines; the
notes are `Topics`, `cells` and `mitosis`. -/
theorem generateNotes_entries_witness :
    (∃ notes : List String,
      generateNotes (fun _ _ _ => some "Topics\n\n- cells\n*  mitosis")
        (obj [("transcription", str "Cells divide.")])
        = jsonResponse (obj [("notes", arr (notes.map str))]) ∧
      notes.length = ((textLines "Topics\n\n- cells\n*  mitosis").filter
        (fun line => !blankLine line)).length ∧
      List.Forall₂ NoteOf ((textLines "Topics\n\n- cells\n*  mitosis").filter
        (fun line => !blankLine line)) notes) ∧
    generateNotes (fun _ _ _ => some "Topics\n\n- cells\n*  mitosis")
        (obj [("transcription", str "Cells divide.")])
      = jsonResponse (obj [("notes", arr [str "Topics", str "cells", str "mitosis"])]) ∧
    (textLines "Topics\n\n- cells\n*  mitosis").filter (fun line => !blankLine line)
      = ["Topics".data, "- cells".data, "*  mitosis".data] :=
  ⟨generateNotes_entries (fun _ _ _ => some "Topics\n\n- cells\n*  mitosis")
    (obj [("transcription", str "Cells divide.")]) "Cells divide." _
    "Topics\n\n- cells\n*  mitosis" rfl (by decide) rfl rfl, rfl, by decide⟩

/-- C8, the code at a request with one flashcard: the document holds the
title and nothing else, no flashcards section is rendered. -/
theorem exportPdf_drops_flashcards (strPositive : String → Bool) :
    exportPdf strPositive (obj [("title", str "Biology 1"),
        ("flashcards", arr [obj [("question", str "Q1"), ("answer", str "A1"), ("id", num 1)]])])
      = .answered ⟨200, [("Content-Type", "application/pdf"),
          ("Content-Disposition", "attachment; filename=\"Biology 1.pdf\"")],
        .pdf [.fontSize 20, .textCentered "Biology 1", .moveDown 2]⟩ := by
  rfl

theorem getLast_append_two (l : List Char) (a b : Char) :
    (l ++ [a, b]).getLast? = some b := by
  have h : l ++ [a, b] = (l ++ [a]) ++ [b] := by simp
  rw [h, List.getLast?_concat]

theorem carriesMark_optionLineText (correct : JsVal) (i : Nat) (option : String) :
    carriesMark (optionLineText correct i option) = correct.isIndex i := by
  unfold carriesMark optionLineText
  cases h : correct.isIndex i
  · simp
    rw [← List.cons_append, getLast_append_two]
    decide
  · simp
    rw [← List.cons_append, getLast_append_two]

theorem optionLines_str (correct : JsVal) (i : Nat) (options : List String) :
    optionLines correct i (options.map str)
      = .ok ((options.enumFrom i).map (fun p => optionLineText correct p.1 p.2)) := by
  induction options generalizing i with
  | nil => rfl
  | cons o os ih =>
    simp only [List.map_cons, optionLines, optionLine, JsVal.toStr, ih, bind, Except.bind, pure,
      Except.pure, List.enumFrom_cons]

theorem isIndex_unique {correct : JsVal} {i j : Nat} (hi : correct.isIndex i = true)
    (hj : correct.isIndex j = true) : i = j := by
  cases correct <;> simp [JsVal.isIndex] at hi hj
  omega

theorem marked_none (correct : JsVal) (k : Nat) (options : List String)
    (h : ∀ j, k ≤ j → correct.isIndex j = false) :
    ((options.enumFrom k).map (fun p => optionLineText correct p.1 p.2)).filter carriesMark
      = [] := by
  induction options generalizing k with
  | nil => rfl
  | cons o os ih =>
    simp only [List.enumFrom_cons, List.map_cons, List.filter_cons, carriesMark_optionLineText,
      h k (le_refl k)]
    simpa using ih (k + 1) (fun j hj => h j (by omega))

theorem marked_le_one (correct : JsVal) (k : Nat) (options : List String) :
    (((options.enumFrom k).map (fun p => optionLineText correct p.1 p.2)).filter
      carriesMark).length ≤ 1 := by
  induction options generalizing k with
  | nil => simp
  | cons o os ih =>
    simp only [List.enumFrom_cons, List.map_cons, List.filter_cons, carriesMark_optionLineText]
    cases hk : correct.isIndex k with
    | false => simpa using ih (k + 1)
    | true =>
      have hnone := marked_none correct (k + 1) os (fun j hj => by
        cases hj' : correct.isIndex j with
        | false => rfl
        | true => have := isIndex_unique hk hj'; omega)
      simp [hnone]

theorem optionTexts_get (correct : JsVal) (options : List String) (i : Nat) :
    ((options.enumFrom 0).map (fun p => optionLineText correct p.1 p.2))[i]?
      = (options[i]?).map (optionLineText correct i) := by
  rw [List.getElem?_map, List.getElem?_enumFrom]
  cases options[i]? <;> simp

theorem questionOps_toJs (index : Nat) (entry : QuizEntry) :
    questionOps index entry.toJs
      = .ok (questionBlock (index + 1) entry.question
          ((entry.options.enumFrom 0).map
            (fun p => optionLineText (num entry.correct) p.1 p.2))) := by
  have hq : entry.toJs.prop "question" = .ok (str entry.question) := rfl
  have ho : entry.toJs.prop "options" = .ok (arr (entry.options.map str)) := rfl
  have hc : entry.toJs.prop "correct" = .ok (num entry.correct) := rfl
  simp only [questionOps, hq, ho, hc, JsVal.toStr, forEachArray, optionLines_str, bind,
    Except.bind, pure, Except.pure, questionBlock]

theorem quizOps_toJs (i : Nat) (entries : List QuizEntry) :
    quizOps i (entries.map QuizEntry.toJs)
      = .ok ((entries.enumFrom i).flatMap (fun p =>
          questionBlock (p.1 + 1) p.2.question
            ((p.2.options.enumFrom 0).map
              (fun o => optionLineText (num p.2.correct) o.1 o.2)))) := by
  induction entries generalizing i with
  | nil => rfl
  | cons e es ih =>
    simp only [List.map_cons, quizOps, questionOps_toJs, ih, bind, Except.bind, pure,
      Except.pure, List.enumFrom_cons, List.flatMap_cons]

theorem notesOps_str (notes : List String) :
    notesOps (notes.map str)
      = .ok (notes.flatMap (fun note => [.fontSize 12, .text ("• " ++ note)])) := by
  induction notes with
  | nil => rfl
  | cons n ns ih =>
    simp only [List.map_cons, notesOps, JsVal.toStr, ih, bind, Except.bind, pure, Except.pure,
      List.flatMap_cons]

/-- The calls that export-pdf makes for a lecture record. -/
theorem pdfContent_record (strPositive : String → Bool) (r : LectureRecord) :
    pdfContent strPositive (str r.title) (str r.transcription) (arr (r.studyNotes.map str))
        (arr (r.quiz.map QuizEntry.toJs))
      = .ok ([.fontSize 20, .textCentered (if r.title = "" then "Lecture Notes" else r.title),
            .moveDown 2]
          ++ (if r.transcription = "" then []
              else [.fontSize 16, .textUnderlined "Transcription", .fontSize 12,
                .textJustified r.transcription, .moveDown 2])
          ++ (if r.studyNotes.isEmpty then []
              else [.fontSize 16, .textUnderlined "Study Notes"]
                ++ r.studyNotes.flatMap (fun note => [.fontSize 12, .text ("• " ++ note)])
                ++ [.moveDown 2])
          ++ (if r.quiz.isEmpty then []
              else [.fontSize 16, .textUnderlined "Quiz Questions"]
                ++ (r.quiz.enumFrom 0).flatMap (fun p =>
                  questionBlock (p.1 + 1) p.2.question
                    ((p.2.options.enumFrom 0).map
                      (fun o => optionLineText (num p.2.correct) o.1 o.2))))) := by
  have htitle : ((str r.title).orElse (str "Lecture Notes")).toStr
      = .ok (if r.title = "" then "Lecture Notes" else r.title) := by
    by_cases ht : r.title = "" <;> simp [JsVal.orElse, JsVal.truthy, ht, JsVal.toStr, pure,
      Except.pure]
  have htrs : (str r.transcription).toStr = .ok r.transcription := rfl
  have hnl : decide (0 < r.studyNotes.length) = !r.studyNotes.isEmpty := by
    cases r.studyNotes <;> simp
  have hzl : decide (0 < r.quiz.length) = !r.quiz.isEmpty := by
    cases r.quiz <;> simp
  simp only [pdfContent, htitle, htrs, JsVal.truthy, lengthPositive, forEachArray, quizOps_toJs,
    notesOps_str, bind, Except.bind, pure, Except.pure, List.length_map, hnl, hzl, ↓reduceIte]
  cases hb1 : r.studyNotes.isEmpty <;> cases hb2 : r.quiz.isEmpty <;>
    by_cases htr : r.transcription = "" <;> simp [htr]

theorem exportPdf_record (strPositive : String → Bool) (r : LectureRecord) (ops : List PdfOp)
    (hvalid : r.title.data.all validHeaderChar = true)
    (hops : pdfContent strPositive (str r.title) (str r.transcription)
      (arr (r.studyNotes.map str)) (arr (r.quiz.map QuizEntry.toJs)) = .ok ops) :
    exportPdf strPositive r.toBody
      = .answered ⟨200, [("Content-Type", "application/pdf"),
          ("Content-Disposition", "attachment; filename=\""
            ++ (if r.title = "" then "lecture-notes" else r.title) ++ ".pdf\"")],
        .pdf ops⟩ := by
  have ht : r.toBody.prop "title" = .ok (str r.title) := rfl
  have htr : r.toBody.prop "transcription" = .ok (str r.transcription) := rfl
  have hn : r.toBody.prop "notes" = .ok (arr (r.studyNotes.map str)) := rfl
  have hq : r.toBody.prop "quiz" = .ok (arr (r.quiz.map QuizEntry.toJs)) := rfl
  have hf : r.toBody.prop "flashcards" = .ok (arr (r.flashcards.map (fun card =>
      obj [("question", str card.1), ("answer", str card.2)]))) := rfl
  have hname : ((str r.title).orElse (str "lecture-notes")).toStr
      = .ok (if r.title = "" then "lecture-notes" else r.title) := by
    by_cases h : r.title = "" <;> simp [JsVal.orElse, JsVal.truthy, h, JsVal.toStr, pure,
      Except.pure]
  have hv : (if r.title = "" then "lecture-notes" else r.title).data.all validHeaderChar
      = true := by
    by_cases h : r.title = ""
    · simp only [h, ↓reduceIte]; decide
    · simp only [h, ↓reduceIte]; exact hvalid
  have hct : setHeader "Content-Type" "application/pdf"
      = .ok ("Content-Type", "application/pdf") := rfl
  simp only [exportPdf, exportPdfTry, ht, htr, hn, hq, hf, hops, bind, Except.bind, pure,
    Except.pure, exportPdfEnd, hct, hname, setHeader_pdf _ hv]

theorem optionLineText_label (correct i : Nat) (option : String) :
    optionLineText (num correct) i option
      = ("   " ++ String.mk [optionLetter i] ++ ". ") ++ option ++ " "
          ++ (if i = correct then "✓" else " ") := by
  simp only [optionLineText, JsVal.isIndex]
  by_cases h : i = correct
  · simp [h]
  · have : ¬ (correct : Int) = (i : Int) := by omega
    simp [h, this]

theorem quiz_blocks_split (entries : List QuizEntry) (k : Nat) (e : QuizEntry)
    (he : entries[k]? = some e) :
    ∃ before after, (entries.enumFrom 0).flatMap (fun p =>
        questionBlock (p.1 + 1) p.2.question
          ((p.2.options.enumFrom 0).map (fun o => optionLineText (num p.2.correct) o.1 o.2)))
      = before ++ questionBlock (k + 1) e.question
          ((e.options.enumFrom 0).map (fun o => optionLineText (num e.correct) o.1 o.2))
        ++ after := by
  obtain ⟨hk, hke⟩ := List.getElem?_eq_some.mp he
  have hsplit : entries = entries.take k ++ e :: entries.drop (k + 1) := by
    rw [← hke, ← List.drop_eq_getElem_cons hk, List.take_append_drop]
  have hlen : (entries.take k).length = k := by
    rw [List.length_take]; omega
  refine ⟨((entries.take k).enumFrom 0).flatMap (fun p =>
      questionBlock (p.1 + 1) p.2.question
        ((p.2.options.enumFrom 0).map (fun o => optionLineText (num p.2.correct) o.1 o.2))),
    ((entries.drop (k + 1)).enumFrom (k + 1)).flatMap (fun p =>
      questionBlock (p.1 + 1) p.2.question
        ((p.2.options.enumFrom 0).map (fun o => optionLineText (num p.2.correct) o.1 o.2))),
    ?_⟩
  conv_lhs => rw [hsplit]
  rw [List.enumFrom_append, List.flatMap_append, hlen, List.enumFrom_cons, List.flatMap_cons]
  simp only [Nat.zero_add, List.append_assoc]

theorem pdfContent_quiz (strPositive : String → Bool) (r : LectureRecord)
    (hne : r.quiz.isEmpty = false) :
    ∃ pre, pdfContent strPositive (str r.title) (str r.transcription)
        (arr (r.studyNotes.map str)) (arr (r.quiz.map QuizEntry.toJs))
      = .ok (pre ++ (r.quiz.enumFrom 0).flatMap (fun p =>
          questionBlock (p.1 + 1) p.2.question
            ((p.2.options.enumFrom 0).map
              (fun o => optionLineText (num p.2.correct) o.1 o.2)))) := by
  refine ⟨[.fontSize 20, .textCentered (if r.title = "" then "Lecture Notes" else r.title),
        .moveDown 2]
      ++ (if r.transcription = "" then []
          else [.fontSize 16, .textUnderlined "Transcription", .fontSize 12,
            .textJustified r.transcription, .moveDown 2])
      ++ (if r.studyNotes.isEmpty then []
          else [.fontSize 16, .textUnderlined "Study Notes"]
            ++ r.studyNotes.flatMap (fun note => [.fontSize 12, .text ("• " ++ note)])
            ++ [.moveDown 2])
      ++ [.fontSize 16, .textUnderlined "Quiz Questions"], ?_⟩
  rw [pdfContent_record, hne]
  simp only [Bool.false_eq_true, ↓reduceIte, List.append_assoc]

theorem marks_of_lines (e : QuizEntry) :
    ((e.options.enumFrom 0).map
        (fun o => optionLineText (num e.correct) o.1 o.2)).length = e.options.length ∧
      (∀ i option, e.options[i]? = some option →
        ∃ label, ((e.options.enumFrom 0).map
          (fun o => optionLineText (num e.correct) o.1 o.2))[i]? = some (label ++ option ++ " "
            ++ (if i = e.correct then "✓" else " "))) ∧
      (((e.options.enumFrom 0).map
        (fun o => optionLineText (num e.correct) o.1 o.2)).filter carriesMark).length ≤ 1 ∧
      (e.correct < e.options.length →
        (((e.options.enumFrom 0).map
          (fun o => optionLineText (num e.correct) o.1 o.2)).filter carriesMark).length = 1 ∧
        ∀ i line, ((e.options.enumFrom 0).map
          (fun o => optionLineText (num e.correct) o.1 o.2))[i]? = some line →
          (carriesMark line = true ↔ i = e.correct)) := by
  refine ⟨by simp, ?_, marked_le_one _ 0 _, ?_⟩
  · intro i option hi
    refine ⟨"   " ++ String.mk [optionLetter i] ++ ". ", ?_⟩
    rw [optionTexts_get, hi, Option.map_some', optionLineText_label]
  · intro hc
    have hline : ∀ i line,
        ((e.options.enumFrom 0).map
          (fun o => optionLineText (num e.correct) o.1 o.2))[i]? = some line →
        (carriesMark line = true ↔ i = e.correct) := by
      intro i line hi
      rw [optionTexts_get] at hi
      cases ho : e.options[i]? with
      | none => simp [ho] at hi
      | some o =>
        simp only [ho, Option.map_some', Option.some.injEq] at hi
        subst hi
        rw [carriesMark_optionLineText]
        simp only [JsVal.isIndex, beq_iff_eq, Nat.cast_inj]
        exact eq_comm
    refine ⟨?_, hline⟩
    have hle := marked_le_one (num e.correct) 0 e.options
    have hc' : e.correct < ((e.options.enumFrom 0).map
        (fun o => optionLineText (num e.correct) o.1 o.2)).length := by
      simpa using hc
    have hmem : ((e.options.enumFrom 0).map
        (fun o => optionLineText (num e.correct) o.1 o.2))[e.correct]
        ∈ ((e.options.enumFrom 0).map
          (fun o => optionLineText (num e.correct) o.1 o.2)).filter carriesMark := by
      rw [List.mem_filter]
      refine ⟨List.getElem_mem _, ?_⟩
      exact (hline e.correct _ (List.getElem?_eq_getElem hc')).mpr rfl
    have hpos := List.length_pos_of_mem hmem
    omega

/-- C7. For every export-pdf request that carries a lecture record and every
question of its quiz, the document holds the block of that question: its
numbered line, then one line per option, in order, each ending in the
option, a blank and the mark or a blank.  At most one of these option lines
carries the mark, and when `correct` is an index into the options exactly
one line carries it, the line of the option at that index. -/
theorem exportPdf_marks (strPositive : String → Bool) (r : LectureRecord) (k : Nat)
    (e : QuizEntry) (hvalid : r.title.data.all validHeaderChar = true)
    (he : r.quiz[k]? = some e) :
    ∃ resp ops before after lines,
      exportPdf strPositive r.toBody = .answered resp ∧ resp.status = 200 ∧
      resp.body = .pdf ops ∧
      ops = before ++ questionBlock (k + 1) e.question lines ++ after ∧
      lines.length = e.options.length ∧
      (∀ i option, e.options[i]? = some option →
        ∃ label, lines[i]? = some (label ++ option ++ " "
          ++ (if i = e.correct then "✓" else " "))) ∧
      (lines.filter carriesMark).length ≤ 1 ∧
      (e.correct < e.options.length →
        (lines.filter carriesMark).length = 1 ∧
        ∀ i line, lines[i]? = some line → (carriesMark line = true ↔ i = e.correct)) := by
  have hne : r.quiz.isEmpty = false := by
    cases hq : r.quiz with
    | nil => rw [hq] at he; simp at he
    | cons _ _ => rfl
  obtain ⟨pre, hpre⟩ := pdfContent_quiz strPositive r hne
  obtain ⟨before, after, hsplit⟩ := quiz_blocks_split r.quiz k e he
  rw [hsplit] at hpre
  have hresp := exportPdf_record strPositive r _ hvalid hpre
  obtain ⟨h1, h2, h3, h4⟩ := marks_of_lines e
  exact ⟨_, _, pre ++ before, after, _, hresp, rfl, rfl, by simp only [List.append_assoc],
    h1, h2, h3, h4⟩

/-- Witness of C7: one question of four options, the first one correct; the
document is spelled out. -/
theorem exportPdf_marks_witness :
    (∃ resp ops before after lines,
      exportPdf (fun _ => false) (LectureRecord.toBody ⟨"Biology 1", "", [],
        [⟨"What divides?", ["Cells", "Rocks", "Clouds", "Stars"], 0⟩], []⟩) = .answered resp ∧
      resp.status = 200 ∧ resp.body = .pdf ops ∧
      ops = before ++ questionBlock (0 + 1) "What divides?" lines ++ after ∧
      lines.length = ["Cells", "Rocks", "Clouds", "Stars"].length ∧
      (∀ i option, ["Cells", "Rocks", "Clouds", "Stars"][i]? = some option →
        ∃ label, lines[i]? = some (label ++ option ++ " "
          ++ (if i = 0 then "✓" else " "))) ∧
      (lines.filter carriesMark).length ≤ 1 ∧
      (0 < ["Cells", "Rocks", "Clouds", "Stars"].length →
        (lines.filter carriesMark).length = 1 ∧
        ∀ i line, lines[i]? = some line → (carriesMark line = true ↔ i = 0))) ∧
    exportPdf (fun _ => false) (LectureRecord.toBody ⟨"Biology 1", "", [],
        [⟨"What divides?", ["Cells", "Rocks", "Clouds", "Stars"], 0⟩], []⟩)
      = .answered ⟨200, [("Content-Type", "application/pdf"),
          ("Content-Disposition", "attachment; filename=\"Biology 1.pdf\"")],
        .pdf [.fontSize 20, .textCentered "Biology 1", .moveDown 2,
          .fontSize 16, .textUnderlined "Quiz Questions",
          .fontSize 12, .text "1. What divides?",
          .text "   A. Cells ✓", .text "   B. Rocks  ", .text "   C. Clouds  ",
          .text "   D. Stars  ", .moveDown 1]⟩ :=
  ⟨exportPdf_marks (fun _ => false) ⟨"Biology 1", "", [],
      [⟨"What divides?", ["Cells", "Rocks", "Clouds", "Stars"], 0⟩], []⟩ 0
      ⟨"What divides?", ["Cells", "Rocks", "Clouds", "Stars"], 0⟩ (by decide) rfl,
    rfl⟩

theorem optionLetter_eq_capitalLetter : ∀ i, i < 26 → optionLetter i = capitalLetter i := by
  decide

theorem optionTexts_eq_expected (correct : Nat) (i : Nat) (options : List String)
    (h : i + options.length ≤ 26) :
    (options.enumFrom i).map (fun p => optionLineText (num correct) p.1 p.2)
      = expectedOptionTexts correct i options := by
  induction options generalizing i with
  | nil => rfl
  | cons o os ih =>
    simp only [List.length_cons] at h
    rw [List.enumFrom_cons, List.map_cons, ih (i + 1) (by omega), expectedOptionTexts,
      optionLineText_label, optionLetter_eq_capitalLetter i (by omega)]

theorem written_map_text (lines : List String) :
    (lines.map PdfOp.text).filterMap PdfOp.written = lines := by
  induction lines with
  | nil => rfl
  | cons l ls ih => simp [PdfOp.written, ih]

theorem quiz_blocks_written (i : Nat) (entries : List QuizEntry)
    (h : ∀ e ∈ entries, e.options.length ≤ 26) :
    ((entries.enumFrom i).flatMap (fun p =>
        questionBlock (p.1 + 1) p.2.question
          ((p.2.options.enumFrom 0).map
            (fun o => optionLineText (num p.2.correct) o.1 o.2)))).filterMap PdfOp.written
      = expectedQuestionTexts (i + 1) entries := by
  induction entries generalizing i with
  | nil => rfl
  | cons e es ih =>
    have he := h e (List.mem_cons_self e es)
    rw [List.enumFrom_cons, List.flatMap_cons, List.filterMap_append,
      ih (i + 1) (fun x hx => h x (List.mem_cons_of_mem e hx)), expectedQuestionTexts,
      optionTexts_eq_expected e.correct 0 e.options (by omega)]
    simp only [questionBlock, List.filterMap_append, List.filterMap_cons, List.filterMap_nil,
      PdfOp.written, written_map_text]
    simp

theorem notes_written (notes : List String) :
    (notes.flatMap (fun note => [PdfOp.fontSize 12, PdfOp.text ("• " ++ note)])).filterMap
        PdfOp.written
      = notes.map (fun note => "• " ++ note) := by
  induction notes with
  | nil => rfl
  | cons n ns ih =>
    simp only [List.flatMap_cons, List.filterMap_append, ih, List.map_cons]
    simp [PdfOp.written]

/-- C16. For every export-pdf request that carries a lecture record (each
question with at most 26 options, the title one that can stand in the
`Content-Disposition` header) the handler answers with the document whose
texts are, in this order: the title (`Lecture Notes` when it is empty); the
heading Transcription and the transcription, when the transcription is not
empty; the heading Study Notes and one bulleted line per note in input
order, when there are notes; the heading Quiz Questions and, for each
question, its line numbered consecutively from 1 followed by one line per
option lettered A, B, C, D and so on by its index, when there are questions.
The flashcards of the record play no part. -/
theorem exportPdf_texts (strPositive : String → Bool) (r : LectureRecord)
    (h : ∀ e ∈ r.quiz, e.options.length ≤ 26)
    (hvalid : r.title.data.all validHeaderChar = true) :
    ∃ resp, exportPdf strPositive r.toBody = .answered resp ∧ resp.status = 200 ∧
      resp.pdfTexts = expectedPdfTexts r := by
  have hresp := exportPdf_record strPositive r _ hvalid (pdfContent_record strPositive r)
  refine ⟨_, hresp, rfl, ?_⟩
  have hq := quiz_blocks_written 0 r.quiz h
  have hn := notes_written r.studyNotes
  simp only [Response.pdfTexts]
  cases hb1 : r.studyNotes.isEmpty <;> cases hb2 : r.quiz.isEmpty <;>
    by_cases htr : r.transcription = "" <;>
    simp [expectedPdfTexts, PdfOp.written, hb1, hb2, htr, hn, hq, List.filterMap_append]

/-- Witness of C16: a record with a transcription, two notes and one
question of four options; the texts of the document are spelled out. -/
theorem exportPdf_texts_witness :
    (∃ resp, exportPdf (fun _ => false) (LectureRecord.toBody ⟨"Biology 1", "Cells divide.",
        ["cells", "mitosis"],
        [⟨"What divides?", ["Cells", "Rocks", "Clouds", "Stars"], 0⟩],
        [("Q1", "A1")]⟩) = .answered resp ∧ resp.status = 200 ∧
      resp.pdfTexts
        = expectedPdfTexts ⟨"Biology 1", "Cells divide.", ["cells", "mitosis"],
            [⟨"What divides?", ["Cells", "Rocks", "Clouds", "Stars"], 0⟩], [("Q1", "A1")]⟩) ∧
    expectedPdfTexts ⟨"Biology 1", "Cells divide.", ["cells", "mitosis"],
        [⟨"What divides?", ["Cells", "Rocks", "Clouds", "Stars"], 0⟩], [("Q1", "A1")]⟩
      = ["Biology 1", "Transcription", "Cells divide.", "Study Notes", "• cells", "• mitosis",
          "Quiz Questions", "1. What divides?", "   A. Cells ✓", "   B. Rocks  ",
          "   C. Clouds  ", "   D. Stars  "] :=
  ⟨exportPdf_texts (fun _ => false) ⟨"Biology 1", "Cells divide.", ["cells", "mitosis"],
      [⟨"What divides?", ["Cells", "Rocks", "Clouds", "Stars"], 0⟩], [("Q1", "A1")]⟩
      (by decide) (by decide),
    by decide⟩

theorem toString_natCast_succ (i : Nat) : toString ((i : Int) + 1) = toString (i + 1) := by
  have h : (i : Int) + 1 = ((i + 1 : Nat) : Int) := by push_cast; rfl
  rw [h]
  rfl

theorem notes_lines (i : Nat) (notes : List String) :
    List.Forall₂ (fun row record =>
      csvLine ["Note Number", "Note Content"] row
        = .ok (joinWith "," (record.map quoteField) ++ "\n"))
      (notesRows i (notes.map str)) (noteRecords (i + 1) notes) := by
  induction notes generalizing i with
  | nil => exact List.Forall₂.nil
  | cons note rest ih =>
    refine List.Forall₂.cons ?_ (ih (i + 1))
    have hn : csvValue [("Note Number", num ((i : Int) + 1)), ("Note Content", str note)]
        "Note Number" = .ok (quoteField (toString (i + 1))) := by
      have ht : (num ((i : Int) + 1)).truthy = true := by
        simp only [JsVal.truthy, bne_iff_ne, ne_eq]
        omega
      simp [csvValue, JsVal.lookup, JsVal.orElse, ht, JsVal.toStr, toString_natCast_succ,
        quoteField, bind, Except.bind, pure, Except.pure]
    have hc : csvValue [("Note Number", num ((i : Int) + 1)), ("Note Content", str note)]
        "Note Content" = .ok (quoteField note) :=
      csvValue_str _ _ _ (by simp [JsVal.lookup])
    simp only [csvLine, List.mapM_cons, List.mapM_nil, hn, hc]
    rfl

theorem quiz_rows (qs : List JsVal) (entries : List QuizEntry)
    (h : List.Forall₂ QuizRowOf qs entries) :
    ∃ csvData, qs.mapM quizRow = .ok csvData ∧
      (∀ row rest, csvData = row :: rest → row.map Prod.fst
        = ["Question", "Option A", "Option B", "Option C", "Option D", "Correct Answer"]) ∧
      List.Forall₂ (fun row record =>
        csvLine ["Question", "Option A", "Option B", "Option C", "Option D", "Correct Answer"] row
          = .ok (joinWith "," (record.map quoteField) ++ "\n")) csvData
        (entries.map quizRecord) := by
  induction h with
  | nil => exact ⟨[], rfl, by simp, List.Forall₂.nil⟩
  | @cons q entry qs' entries' hq _ ih =>
    obtain ⟨csvData, hmap, _, hlines⟩ := ih
    obtain ⟨hquestion, hoptions, hcorrect, hlen, hlt⟩ := hq
    obtain ⟨question, options, correct⟩ := entry
    simp only at hquestion hoptions hcorrect hlen hlt
    match options, hlen with
    | [a, b, c, d], _ =>
      have hanswer : (arr ([a, b, c, d].map str)).atKey (num (correct : Int))
          = .ok (str ([a, b, c, d].getD correct "")) := by
        have h0 : (0 : Int) ≤ (correct : Int) := Int.natCast_nonneg correct
        simp only [JsVal.atKey, h0, ↓reduceIte, JsVal.index, Int.toNat_ofNat]
        match correct, hlt with
        | 0, _ => rfl
        | 1, _ => rfl
        | 2, _ => rfl
        | 3, _ => rfl
      have hrow : quizRow q = .ok [("Question", str question), ("Option A", str a),
          ("Option B", str b), ("Option C", str c), ("Option D", str d),
          ("Correct Answer", str ([a, b, c, d].getD correct ""))] := by
        simp only [quizRow, hquestion, hoptions, hcorrect, bind, Except.bind, hanswer]
        rfl
      refine ⟨[("Question", str question), ("Option A", str a),
          ("Option B", str b), ("Option C", str c), ("Option D", str d),
          ("Correct Answer", str ([a, b, c, d].getD correct ""))] :: csvData, ?_, ?_,
        List.Forall₂.cons ?_ hlines⟩
      · simp only [List.mapM_cons, hrow, hmap]
        rfl
      · intro row rest hrr
        injection hrr with h1 _
        rw [← h1]
        rfl
      · simp only [csvLine, List.mapM_cons, List.mapM_nil, quizRecord]
        rw [csvValue_str _ "Question" question (by simp [JsVal.lookup]),
          csvValue_str _ "Option A" a (by simp [JsVal.lookup]),
          csvValue_str _ "Option B" b (by simp [JsVal.lookup]),
          csvValue_str _ "Option C" c (by simp [JsVal.lookup]),
          csvValue_str _ "Option D" d (by simp [JsVal.lookup]),
          csvValue_str _ "Correct Answer" ([a, b, c, d].getD correct "")
            (by simp [JsVal.lookup])]
        rfl

theorem noteRecords_ne_nil (n : Nat) (notes : List String) :
    ∀ r ∈ noteRecords n notes, r ≠ [] := by
  induction notes generalizing n with
  | nil => simp [noteRecords]
  | cons note rest ih =>
    intro r hr
    simp only [noteRecords, List.mem_cons] at hr
    rcases hr with h | h
    · rw [h]; simp
    · exact ih (n + 1) r h

/-- C12. For each of the three types with a non-empty data list, and a title
that can stand in the `Content-Disposition` header, the CSV text reads back,
with a standard reader, as the header record of the type (notes: Note
Number, Note Content; quiz: Question, Option A to Option D, Correct Answer;
flashcards: Question, Answer) followed by exactly one record per input row,
in input order; the record of the i-th note holds the number i, counted from
1, and the note, and the record of a quiz question holds the question, its
four options and the text of the option at index `correct`. -/
theorem exportCsv_columns_and_rows (body title : JsVal) (name : String)
    (htitle : body.prop "title" = .ok title)
    (hname : (title.orElse (str "lecture-data")).toStr = .ok name)
    (hvalid : name.data.all validHeaderChar = true) :
    (∀ notes : List String,
      body.prop "type" = .ok (str "notes") → body.prop "data" = .ok (arr (notes.map str)) →
      notes ≠ [] →
      ∃ text, (exportCsv body).csvText = some text ∧
        rfc4180Read text = some (["Note Number", "Note Content"] :: noteRecords 1 notes)) ∧
    (∀ (qs : List JsVal) (entries : List QuizEntry),
      body.prop "type" = .ok (str "quiz") → body.prop "data" = .ok (arr qs) →
      List.Forall₂ QuizRowOf qs entries → qs ≠ [] →
      ∃ text, (exportCsv body).csvText = some text ∧
        rfc4180Read text = some
          (["Question", "Option A", "Option B", "Option C", "Option D", "Correct Answer"]
            :: entries.map quizRecord)) ∧
    (∀ (cards : List JsVal) (qa : List (String × String)),
      body.prop "type" = .ok (str "flashcards") → body.prop "data" = .ok (arr cards) →
      List.Forall₂ FlashcardOf cards qa → cards ≠ [] →
      ∃ text, (exportCsv body).csvText = some text ∧
        rfc4180Read text = some (["Question", "Answer"] :: qa.map (fun p => [p.1, p.2]))) := by
  refine ⟨?_, ?_, ?_⟩
  · intro notes htype hdata hne
    have hrows : notesRows 0 (notes.map str) ≠ [] := by
      cases notes with
      | nil => exact absurd rfl hne
      | cons n ns => simp [notesRows]
    obtain ⟨hcontent, hread⟩ := read_csvContent (notesRows 0 (notes.map str))
      ["Note Number", "Note Content"] (noteRecords 1 notes)
      (by
        intro row rest h
        cases notes with
        | nil => exact absurd rfl hne
        | cons n ns =>
          simp only [List.map_cons, notesRows] at h
          injection h with h1 _
          rw [← h1]
          rfl)
      hrows (fun rest => rfl) (notes_lines 0 notes) (noteRecords_ne_nil 1 notes)
    exact ⟨_, exportCsv_text_notes body title name _ _ htype hdata htitle hname hvalid hrows
      hcontent, hread⟩
  · intro qs entries htype hdata hq hne
    obtain ⟨csvData, hmap, hkeys, hlines⟩ := quiz_rows qs entries hq
    have hrows : csvData ≠ [] := by
      intro h
      subst h
      have h1 := hq.length_eq
      have h2 := hlines.length_eq
      simp only [List.length_nil, List.length_map] at h2
      exact hne (List.length_eq_zero.mp (by omega))
    obtain ⟨hcontent, hread⟩ := read_csvContent csvData _ (entries.map quizRecord) hkeys hrows
      (fun rest => rfl) hlines
      (by
        intro r hr
        simp only [List.mem_map] at hr
        obtain ⟨e, _, rfl⟩ := hr
        simp [quizRecord])
    exact ⟨_, exportCsv_text_quiz body title name _ qs csvData htype hdata htitle hname hvalid
      hmap hrows hcontent, hread⟩
  · intro cards qa htype hdata hcards hne
    have hqa : qa ≠ [] := by
      intro h
      subst h
      cases hcards
      exact hne rfl
    obtain ⟨hcontent, hread⟩ := flashcards_csv qa hqa
    exact ⟨_, exportCsv_text_flashcards body title name _ cards _ htype hdata htitle hname
      hvalid (mapM_flashcardRow cards qa hcards) (by simpa using hqa) hcontent, hread⟩

/-- Witness of C12: two notes, one quiz question, one flashcard; the CSV
texts are spelled out. -/
theorem exportCsv_columns_and_rows_witness :
    (∃ text, (exportCsv (obj [("type", str "notes"),
        ("data", arr (["first, note", "second"].map str))])).csvText = some text ∧
      rfc4180Read text
        = some (["Note Number", "Note Content"] :: noteRecords 1 ["first, note", "second"])) ∧
    (∃ text, (exportCsv (obj [("type", str "quiz"),
        ("data", arr [obj [("question", str "Q"),
          ("options", arr (["w", "x", "y", "z"].map str)), ("correct", num 2)]])])).csvText
        = some text ∧
      rfc4180Read text = some
        (["Question", "Option A", "Option B", "Option C", "Option D", "Correct Answer"]
          :: [(⟨"Q", ["w", "x", "y", "z"], 2⟩ : QuizEntry)].map quizRecord)) ∧
    (∃ text, (exportCsv (obj [("type", str "flashcards"),
        ("data", arr [obj [("question", str "Q1"), ("answer", str "A,1")]])])).csvText
        = some text ∧
      rfc4180Read text = some (["Question", "Answer"] ::
        [("Q1", "A,1")].map (fun p => [p.1, p.2]))) ∧
    (exportCsv (obj [("type", str "notes"),
        ("data", arr (["first, note", "second"].map str))])).csvText
      = some "Note Number,Note Content\n\"1\",\"first, note\"\n\"2\",\"second\"\n" ∧
    (exportCsv (obj [("type", str "quiz"),
        ("data", arr [obj [("question", str "Q"),
          ("options", arr (["w", "x", "y", "z"].map str)), ("correct", num 2)]])])).csvText
      = some ("Question,Option A,Option B,Option C,Option D,Correct Answer\n"
          ++ "\"Q\",\"w\",\"x\",\"y\",\"z\",\"y\"\n") :=
  ⟨(exportCsv_columns_and_rows (obj [("type", str "notes"),
        ("data", arr (["first, note", "second"].map str))]) undefined "lecture-data"
      rfl rfl (by decide)).1 ["first, note", "second"] rfl rfl (by simp),
    (exportCsv_columns_and_rows (obj [("type", str "quiz"),
        ("data", arr [obj [("question", str "Q"),
          ("options", arr (["w", "x", "y", "z"].map str)), ("correct", num 2)]])])
      undefined "lecture-data" rfl rfl (by decide)).2.1
      [obj [("question", str "Q"), ("options", arr (["w", "x", "y", "z"].map str)),
        ("correct", num 2)]]
      [⟨"Q", ["w", "x", "y", "z"], 2⟩] rfl rfl
      (List.Forall₂.cons ⟨rfl, rfl, rfl, rfl, by decide⟩ List.Forall₂.nil) (by simp),
    (exportCsv_columns_and_rows (obj [("type", str "flashcards"),
        ("data", arr [obj [("question", str "Q1"), ("answer", str "A,1")]])])
      undefined "lecture-data" rfl rfl (by decide)).2.2
      [obj [("question", str "Q1"), ("answer", str "A,1")]]
      [("Q1", "A,1")] rfl rfl (List.Forall₂.cons ⟨rfl, rfl⟩ List.Forall₂.nil) (by simp),
    by decide, by decide⟩

end StudyWise
